import Mathlib

/-!
Shallow embedding of the load-balancing simulation engine of
`AdvancedLoadBalancingSimulator` (src/app.js), together with proofs of the
frozen claims about it.

Conventions of the embedding:

* JavaScript numbers that only ever hold integral values in the engine
  (simulation time, task processing/remaining times, loads, SLA targets)
  are modelled as `Int`/`Nat`; genuinely fractional values (server weights,
  rates, averages, percentages) are modelled as `ℚ`.  All arithmetic the
  claims depend on is exact in binary64, so this is faithful there; where a
  stored metric value involves `Math.sqrt` (whose binary64 result is not a
  rational of small height) we use a rational square-root approximation
  `sqrtQ` — no claim depends on that stored value.
* JavaScript tasks are shared mutable objects: the same task object is
  referenced from `this.tasks`, a server's priority queue and its
  `processingTasks` array.  The embedding therefore keeps one authoritative
  task store (`SimState.tasks`, mirroring `this.tasks`) and lets queues and
  the completed/failed collections hold task ids, with lookups going through
  the store.  This reproduces the aliasing of the source exactly (ids are
  unique, `currentTaskId++`).
* `Math.random()` draws, `Date.now()` readings and the `setTimeout`-based
  recovery callback are modelled as explicit parameters / separate events,
  universally quantified where reachability matters.
* DOM updates, chart updates, the visual event log and export code are pure
  observers and are not modelled.
* The source's `metrics` object literal (constructor and `resetSimulation`)
  does not define `successRate` / `completionVelocity`; `calculateMetrics`
  nevertheless does `this.metrics.successRate.push(...)`.  Absence of a JS
  field is modelled by an `Option` that is `none`; pushing into an absent
  field is the JS `TypeError`, modelled as an error flag (`Bool`) returned
  beside the partially mutated state, exactly as far as the source got
  before throwing.
-/

namespace LoadBalancer

/-- Task priorities, `taskPriorities` keys in the source. -/
inductive Priority
  | high
  | medium
  | low
deriving DecidableEq, Repr

/-- Source `taskPriorities[p].slaTarget` (ms). -/
def slaTarget : Priority → Int
  | .high => 2000
  | .medium => 5000
  | .low => 10000

/-- Numeric level of a priority; used to state the escalation invariant. -/
def priorityRank : Priority → Nat
  | .low => 0
  | .medium => 1
  | .high => 2

/-- Task lifecycle status strings. -/
inductive TaskStatus
  | pending
  | processing
  | completed
  | failed
deriving DecidableEq, Repr

/-- Server health status strings. -/
inductive HealthStatus
  | healthy
  | degraded
  | failed
  | recovering
deriving DecidableEq, Repr

/-- The six selection-algorithm keys of `this.config.algorithm`. -/
inductive Algorithm
  | roundRobin
  | leastLoad
  | weightedRoundRobin
  | shortestResponseTime
  | randomized
  | consistentHashing
deriving DecidableEq, Repr

/-- A task object as created by `generateTask`.  `completionTime`,
`responseTime` and `assignedServer` start as JS `null`, hence `Option`. -/
structure Task where
  id : Nat
  priority : Priority
  arrivalTime : Int
  processingTime : Int
  remainingTime : Int
  slaDeadline : Int
  assignedServer : Option Nat
  completionTime : Option Int
  responseTime : Option Int
  status : TaskStatus
  failedFlag : Bool
deriving DecidableEq, Repr

/-- A server record as created by `createServers`.  The three priority
queues and `processingTasks` hold task ids (see the aliasing note above). -/
structure Server where
  id : Nat
  currentLoad : Int
  capacity : Int
  weight : ℚ
  healthStatus : HealthStatus
  responseTimeHistory : List Int
  queueHigh : List Nat
  queueMedium : List Nat
  queueLow : List Nat
  processingTasks : List Nat
  totalProcessed : Nat
  uptime : ℚ
  lastHealthCheck : Int
  failureTime : Option Int
  recoveryTime : Option Int
  creationTime : Int
deriving DecidableEq, Repr

/-- Source `this.config`.  The three `priorityDistribution` percentages are kept as
separate integer fields. -/
structure Config where
  serverCount : Nat
  serverCapacity : Int
  taskCount : Nat
  taskProcessingTimeMin : Int
  taskProcessingTimeMax : Int
  arrivalRate : Int
  algorithm : Algorithm
  serverFailureRate : ℚ
  healthCheckIntervalMs : Int
  serverRecoveryTime : Int
  pdHigh : Int
  pdMedium : Int
  pdLow : Int
deriving DecidableEq, Repr

/-- The `this.metrics` record.  `successRate` and `completionVelocity` are
`Option` because the object literals in the constructor and in
`resetSimulation` do not define them (JS `undefined`): `none` models the
field being absent. -/
structure MetricsRec where
  responseTime : List ℚ
  throughput : List ℚ
  resourceUtilization : List ℚ
  loadFairness : List ℚ
  slaCompliance : List ℚ
  failureRate : List ℚ
  timestamps : List Int
  p50 : List Int
  p90 : List Int
  p95 : List Int
  pmHighSla : List ℚ
  pmHighCount : Nat
  pmMediumSla : List ℚ
  pmMediumCount : Nat
  pmLowSla : List ℚ
  pmLowCount : Nat
  successRate : Option (List ℚ)
  completionVelocity : Option (List ℚ)
deriving DecidableEq, Repr

/-- The metrics record built by the constructor and by `resetSimulation`:
all history arrays empty, and no `successRate`/`completionVelocity` field. -/
def freshMetrics : MetricsRec :=
  { responseTime := [], throughput := [], resourceUtilization := []
    loadFairness := [], slaCompliance := [], failureRate := []
    timestamps := [], p50 := [], p90 := [], p95 := []
    pmHighSla := [], pmHighCount := 0, pmMediumSla := [], pmMediumCount := 0
    pmLowSla := [], pmLowCount := 0
    successRate := none, completionVelocity := none }

/-- Source `this.taskProgress`, set by `updateTaskProgress`. -/
structure TaskProgress where
  total : Nat
  pending : Nat
  inProgress : Nat
  completed : Nat
  failedCount : Nat
  completionPercentage : ℚ
  completionRate : ℚ
  successRate : ℚ
  eta : ℚ
deriving DecidableEq, Repr

/-- Source `this.simulationState`. -/
inductive SimMode
  | stopped
  | running
  | paused
  | completedMode
deriving DecidableEq, Repr

/-- The engine state: the fields of `AdvancedLoadBalancingSimulator` that the
engine reads or writes (charts, DOM handles and interval ids are external).
`taskProgress` is `Option` because the constructor does not define
`this.taskProgress`; it first appears when `updateTaskProgress` runs. -/
structure SimState where
  servers : List Server
  tasks : List Task
  completedTasks : List Nat
  failedTasks : List Nat
  currentTaskId : Nat
  simulationTime : Int
  roundRobinCounter : Nat
  weightedRoundRobinCounters : List Nat
  simulationState : SimMode
  metrics : MetricsRec
  taskProgress : Option TaskProgress
  config : Config
deriving DecidableEq, Repr

/-- Default `this.config` from the constructor (0.02 = 1/50). -/
def defaultConfig : Config :=
  { serverCount := 5, serverCapacity := 100, taskCount := 100
    taskProcessingTimeMin := 500, taskProcessingTimeMax := 3000
    arrivalRate := 8, algorithm := .roundRobin
    serverFailureRate := ⟨1, 50, by decide, by decide⟩
    healthCheckIntervalMs := 3000, serverRecoveryTime := 10000
    pdHigh := 20, pdMedium := 50, pdLow := 30 }

/-- The state right after the constructor's field initialisers ran
(before `init()` calls `resetSimulation`). -/
def initialSim : SimState :=
  { servers := [], tasks := [], completedTasks := [], failedTasks := []
    currentTaskId := 1, simulationTime := 0, roundRobinCounter := 0
    weightedRoundRobinCounters := [], simulationState := .stopped
    metrics := freshMetrics, taskProgress := none, config := defaultConfig }

/-! ### Task-store helpers (JS object aliasing through ids) -/

/-- Dereference a task id in the store (`this.tasks` holds the objects). -/
def findTask (store : List Task) (id : Nat) : Option Task :=
  store.find? (fun t => t.id = id)

/-- Mutate the task object with the given id (all aliases see the change). -/
def updateTask (store : List Task) (id : Nat) (f : Task → Task) : List Task :=
  store.map (fun t => if t.id = id then f t else t)

/-- Mutate one server record in the pool. -/
def updateServer (servers : List Server) (id : Nat) (f : Server → Server) :
    List Server :=
  servers.map (fun s => if s.id = id then f s else s)

/-! ### `normalizePriorityDistribution` (src/app.js lines 175-188) -/

/-- Source `normalizePriorityDistribution`: if the three percentages do not sum to
100, add the difference to the `low` share, then clamp `low` to [0, 100]. -/
def normalizePriorityDistribution (c : Config) : Config :=
  let total := c.pdHigh + c.pdMedium + c.pdLow
  if total ≠ 100 then
    let low1 := c.pdLow + (100 - total)
    { c with pdLow := max 0 (min 100 low1) }
  else
    c

/-! ### `getPercentile` (src/app.js lines 825-829) -/

/-- Source `getPercentile(sortedArray, percentile)`: `0` for the empty array,
otherwise the element at index `ceil(p/100 * n) - 1`, clamped to
`[0, n-1]`.  (`Math.ceil` on the exact rational agrees with the binary64
computation for all percentile/length pairs the engine uses.) -/
def getPercentile (sortedArray : List Int) (percentile : ℚ) : Int :=
  if sortedArray.length = 0 then 0
  else
    let index : Int := ⌈percentile / 100 * (sortedArray.length : ℚ)⌉ - 1
    sortedArray.getD (max 0 (min index ((sortedArray.length : Int) - 1))).toNat 0

/-! ### Selection algorithms (src/app.js lines 497-574) -/

/-- Source `roundRobinSelection`: pick `servers[counter % len]` and advance the
process-wide cursor to `(counter + 1) % len`. -/
def roundRobinSelection (servers : List Server) (counter : Nat) :
    Option Server × Nat :=
  if servers.length = 0 then (none, counter)
  else (servers[counter % servers.length]?, (counter + 1) % servers.length)

/-- Iterate `roundRobinSelection` `m` times against a fixed list, starting
from cursor `c`, collecting the selections in order. -/
def rrRun (servers : List Server) : Nat → Nat → List (Option Server)
  | 0, _ => []
  | m + 1, c =>
    let r := roundRobinSelection servers c
    r.1 :: rrRun servers m r.2

/-- Source `leastLoadSelection`: `reduce` the arg-min of `currentLoad`; ties keep
the earlier server. -/
def leastLoadSelection : List Server → Option Server
  | [] => none
  | s₀ :: rest =>
    some (rest.foldl (fun m srv => if srv.currentLoad < m.currentLoad then srv else m) s₀)

/-- Source `weightedRoundRobinSelection`: arg-max of `weight / max(currentLoad, 1)`
with strict improvement, so ties keep the earlier server. -/
def weightedRoundRobinSelection : List Server → Option Server
  | [] => none
  | s₀ :: rest =>
    some ((s₀ :: rest).foldl
      (fun best srv =>
        if srv.weight / (max (srv.currentLoad : ℚ) 1) >
            best.weight / (max (best.currentLoad : ℚ) 1) then srv else best)
      s₀)

/-- Source `getAverageResponseTime`: mean of the last 10 recorded response times,
or the sentinel 1000 for a server with no history. -/
def getAverageResponseTime (s : Server) : ℚ :=
  if s.responseTimeHistory.length = 0 then 1000
  else
    let recent := s.responseTimeHistory.drop (s.responseTimeHistory.length - 10)
    ((recent.map (fun t => (t : ℚ))).sum) / (recent.length : ℚ)

/-- Source `shortestResponseTimeSelection`: arg-min of `getAverageResponseTime`
with strict improvement. -/
def shortestResponseTimeSelection : List Server → Option Server
  | [] => none
  | s₀ :: rest =>
    some ((s₀ :: rest).foldl
      (fun best srv =>
        if getAverageResponseTime srv < getAverageResponseTime best then srv else best)
      s₀)

/-- The inverse-load weight of one server in `randomizedSelection`
(assumes `capacity > 0`, as every configuration the UI can produce has). -/
def inverseLoadWeight (s : Server) : ℚ :=
  1 / max ((s.currentLoad : ℚ) / (s.capacity : ℚ)) (1 / 10)

/-- The roulette loop of `randomizedSelection`: subtract weights until the
remaining draw drops to 0 or below. -/
def rouletteWalk : List Server → List ℚ → ℚ → Option Server
  | [], _, _ => none
  | s :: rest, w :: ws, r => if r - w ≤ 0 then some s else rouletteWalk rest ws (r - w)
  | _ :: rest, [], r => rouletteWalk rest [] r

/-- Source `randomizedSelection` with the uniform draw `r ∈ [0,1)` explicit. -/
def randomizedSelection (servers : List Server) (r : ℚ) : Option Server :=
  let weights := servers.map inverseLoadWeight
  let totalWeight := weights.sum
  match rouletteWalk servers weights (r * totalWeight) with
  | some s => some s
  | none => servers.getLast?

/-! ### `simpleHash` and `consistentHashingSelection` (lines 559-574) -/

/-- Source `ToInt32` of ECMAScript: wrap an integer into `[-2^31, 2^31)`. -/
def int32 (x : Int) : Int := (x + 2 ^ 31) % 2 ^ 32 - 2 ^ 31

/-- One loop iteration of `simpleHash`:
`hash = ((hash << 5) - hash) + charCode; hash = hash & hash`.
`hash << 5` is itself a 32-bit operation; the subtraction and addition are
exact in binary64 (all values stay far below 2^53), and `hash & hash` is
`ToInt32`. -/
def simpleHashStep (hash : Int) (c : Nat) : Int :=
  int32 (int32 (hash * 32) - hash + c)

/-- Source `simpleHash(str)` over the char codes of the string: the rolling hash
followed by `Math.abs`. -/
def simpleHash (codes : List Nat) : Nat :=
  (codes.foldl simpleHashStep 0).natAbs

/-- Char codes of the decimal representation of a positive natural. -/
def decCodes : Nat → List Nat
  | 0 => []
  | n + 1 => decCodes ((n + 1) / 10) ++ [48 + (n + 1) % 10]
decreasing_by exact Nat.div_lt_self (Nat.succ_pos n) (by omega)

/-- Char codes of `n.toString()` for a JS non-negative integer. -/
def toDecCodes (n : Nat) : List Nat :=
  if n = 0 then [48] else decCodes n

/-- Source `consistentHashingSelection`: hash the task's decimal id string and index
the healthy list at `hash % servers.length`.  (On the empty list the source
reads `servers[NaN]`, i.e. `undefined`; `getElem?` returns `none`.) -/
def consistentHashingSelection (servers : List Server) (task : Task) :
    Option Server :=
  let hash := simpleHash (toDecCodes task.id)
  servers[hash % servers.length]?

/-- The spec's description of the hash ("`hash = hash*31 + charCode`, wrapped
to signed 32-bit, then absolute value"), stated as its own definition to be
compared with the source-shaped `simpleHash`. -/
def specRollingHash (codes : List Nat) : Nat :=
  (codes.foldl (fun h c => int32 (31 * h + c)) 0).natAbs

/-- The spec-side server index for a task id. -/
def specHashIndex (id len : Nat) : Nat := specRollingHash (toDecCodes id) % len

/-! ### `createServers` (lines 373-401) -/

/-- One server record of `createServers`; `w ∈ [0,1)` is the `Math.random()`
draw (`weight = w * 0.5 + 0.75`), `now` the `Date.now()` reading. -/
def mkServer (cap : Int) (now : Int) (i : Nat) (w : ℚ) : Server :=
  { id := i, currentLoad := 0, capacity := cap
    weight := w * (1 / 2) + 3 / 4
    healthStatus := .healthy, responseTimeHistory := []
    queueHigh := [], queueMedium := [], queueLow := []
    processingTasks := [], totalProcessed := 0, uptime := 100
    lastHealthCheck := now, failureTime := none, recoveryTime := none
    creationTime := now }

/-- Source `createServers`: rebuild `this.servers` (ids 1..serverCount) and the
`weightedRoundRobinCounters` array of zeroes. -/
def createServers (s : SimState) (now : Int) (ws : Nat → ℚ) : SimState :=
  { s with
    servers := (List.range s.config.serverCount).map
      (fun i => mkServer s.config.serverCapacity now (i + 1) (ws i))
    weightedRoundRobinCounters :=
      (List.range s.config.serverCount).map (fun _ => 0) }

/-! ### `resetSimulation` (lines 1091-1130) -/

/-- Source `resetSimulation`: unconditionally stop, zero the clock and counters,
empty every task collection, rebuild the metrics literal (again without
`successRate`/`completionVelocity`) and recreate the servers.  The source
performs no validation of `this.config` whatsoever. -/
def resetSimulation (s : SimState) (now : Int) (ws : Nat → ℚ) : SimState :=
  createServers
    { s with
      simulationState := .stopped
      simulationTime := 0
      currentTaskId := 1
      roundRobinCounter := 0
      tasks := []
      completedTasks := []
      failedTasks := []
      metrics := freshMetrics
      taskProgress := s.taskProgress }
    now ws

/-! ### `selectServerByAlgorithm` and `assignTask` (lines 440-495) -/

/-- Source `selectServerByAlgorithm`; returns the choice and the (possibly
advanced) round-robin cursor.  `rSel` is the `Math.random()` draw used by
the randomized strategy. -/
def selectServerByAlgorithm (s : SimState) (healthy : List Server)
    (task : Task) (rSel : ℚ) : Option Server × Nat :=
  match s.config.algorithm with
  | .roundRobin => roundRobinSelection healthy s.roundRobinCounter
  | .leastLoad => (leastLoadSelection healthy, s.roundRobinCounter)
  | .weightedRoundRobin => (weightedRoundRobinSelection healthy, s.roundRobinCounter)
  | .shortestResponseTime => (shortestResponseTimeSelection healthy, s.roundRobinCounter)
  | .randomized => (randomizedSelection healthy rSel, s.roundRobinCounter)
  | .consistentHashing => (consistentHashingSelection healthy task, s.roundRobinCounter)

/-- Mark a task object as terminally failed (`task.failed = true;
task.status = 'failed'`). -/
def markTaskFailed (t : Task) : Task :=
  { t with failedFlag := true, status := .failed }

/-- Source `assignTask(task)`: filter healthy-or-degraded servers; on an empty set
or a null selection the task fails terminally; otherwise stamp the task,
push its id into the selected server's queue for the task's priority (the
queue is chosen by the priority *at assignment time*), into
`processingTasks`, and add its processing time to `currentLoad`. -/
def assignTask (s : SimState) (task : Task) (rSel : ℚ) : SimState :=
  let healthy := s.servers.filter
    (fun srv => srv.healthStatus = .healthy || srv.healthStatus = .degraded)
  if healthy.length = 0 then
    { s with
      tasks := updateTask s.tasks task.id markTaskFailed
      failedTasks := s.failedTasks ++ [task.id] }
  else
    match selectServerByAlgorithm s healthy task rSel with
    | (none, c) =>
      { s with
        roundRobinCounter := c
        tasks := updateTask s.tasks task.id markTaskFailed
        failedTasks := s.failedTasks ++ [task.id] }
    | (some sel, c) =>
      { s with
        roundRobinCounter := c
        tasks := updateTask s.tasks task.id
          (fun t => { t with assignedServer := some sel.id, status := .processing })
        servers := updateServer s.servers sel.id (fun srv =>
          let srv1 :=
            match task.priority with
            | .high => { srv with queueHigh := srv.queueHigh ++ [task.id] }
            | .medium => { srv with queueMedium := srv.queueMedium ++ [task.id] }
            | .low => { srv with queueLow := srv.queueLow ++ [task.id] }
          { srv1 with
            processingTasks := srv1.processingTasks ++ [task.id]
            currentLoad := srv1.currentLoad + task.processingTime }) }

/-! ### `generateTask` (lines 403-438) -/

/-- Source `generateTask` with the two `Math.random()` draws explicit
(`rProc`, `rPrio ∈ [0,1)`) plus the draw a randomized selection would use. -/
def generateTask (s : SimState) (rProc rPrio rSel : ℚ) : SimState :=
  let cfg := s.config
  let processingTime : Int :=
    ⌊rProc * ((cfg.taskProcessingTimeMax - cfg.taskProcessingTimeMin + 1 : Int) : ℚ)⌋
      + cfg.taskProcessingTimeMin
  let rand := rPrio * 100
  let priority : Priority :=
    if rand < (cfg.pdHigh : ℚ) then .high
    else if rand < ((cfg.pdHigh + cfg.pdMedium : Int) : ℚ) then .medium
    else .low
  let task : Task :=
    { id := s.currentTaskId, priority := priority
      arrivalTime := s.simulationTime
      processingTime := processingTime, remainingTime := processingTime
      slaDeadline := s.simulationTime + slaTarget priority
      assignedServer := none, completionTime := none, responseTime := none
      status := .pending, failedFlag := false }
  let s1 := { s with currentTaskId := s.currentTaskId + 1, tasks := s.tasks ++ [task] }
  assignTask s1 task rSel

/-! ### `processServerTasks` (lines 617-687) -/

/-- The mutable context threaded through one server's scheduling pass:
the task store, the global completed/failed collections, the server fields
the pass mutates, the shared `processedThisStep` counter, and a ghost trace
recording, for each task-advancement, the task object before and after the
advancement (the trace observes the computation and never influences it). -/
structure PassSt where
  store : List Task
  completedIds : List Nat
  failedIds : List Nat
  currentLoad : Int
  totalProcessed : Nat
  responseTimeHistory : List Int
  processingTasks : List Nat
  counter : Nat
deriving DecidableEq, Repr

/-- Source `server.responseTimeHistory.push(rt)` capped at 20 entries. -/
def pushHistory (hist : List Int) (rt : Int) : List Int :=
  let h := hist ++ [rt]
  if h.length > 20 then h.tail else h

/-- The `filter` callback loop of `processServerTasks` for one priority
queue: returns the kept queue, the updated context and the advancement
trace of this queue.  Per element: keep it untouched when the per-tick
budget (3) is exhausted or `remainingTime ≤ 0`; otherwise subtract
`min(1000, remainingTime)`, and on reaching 0 finalise completion and drop
the task from the queue.  (A dangling id — impossible in the source, where
queues hold the objects themselves — is kept untouched.) -/
def procQueue (simTime : Int) : List Nat → PassSt →
    List Nat × PassSt × List (Task × Task)
  | [], st => ([], st, [])
  | id :: rest, st =>
    if st.counter ≥ 3 then
      let r := procQueue simTime rest st
      (id :: r.1, r.2)
    else
      match findTask st.store id with
      | none =>
        let r := procQueue simTime rest st
        (id :: r.1, r.2)
      | some t =>
        if t.remainingTime ≤ 0 then
          let r := procQueue simTime rest st
          (id :: r.1, r.2)
        else
          let stepProcessing := min 1000 t.remainingTime
          let t1 := { t with remainingTime := t.remainingTime - stepProcessing }
          if t1.remainingTime ≤ 0 then
            let t2 := { t1 with
              completionTime := some simTime
              responseTime := some (simTime - t1.arrivalTime)
              status := .completed }
            let st1 : PassSt :=
              { store := updateTask st.store id (fun _ => t2)
                completedIds := st.completedIds ++ [id]
                failedIds := st.failedIds
                currentLoad := max 0 (st.currentLoad - t2.processingTime)
                totalProcessed := st.totalProcessed + 1
                responseTimeHistory := pushHistory st.responseTimeHistory (simTime - t1.arrivalTime)
                processingTasks := st.processingTasks.erase id
                counter := st.counter + 1 }
            let r := procQueue simTime rest st1
            (r.1, r.2.1, (t, t2) :: r.2.2)
          else
            let st1 : PassSt :=
              { st with
                store := updateTask st.store id (fun _ => t1)
                counter := st.counter + 1 }
            let r := procQueue simTime rest st1
            (id :: r.1, r.2.1, (t, t1) :: r.2.2)

/-- The context a pass starts from, assembled from the server and the
global collections. -/
def initPass (srv : Server) (store : List Task)
    (completedIds failedIds : List Nat) : PassSt :=
  { store := store, completedIds := completedIds, failedIds := failedIds
    currentLoad := srv.currentLoad, totalProcessed := srv.totalProcessed
    responseTimeHistory := srv.responseTimeHistory
    processingTasks := srv.processingTasks, counter := 0 }

/-- Result of one server's pass: the updated server, the updated store and
collections, and the full advancement trace. -/
structure PassResult where
  server : Server
  store : List Task
  completedIds : List Nat
  failedIds : List Nat
  trace : List (Task × Task)
deriving DecidableEq, Repr

/-- Source `processServerTasks(server)`.  A `failed` server fails every task in its
three queues, empties them and `processingTasks`, and zeroes
`currentLoad`; otherwise the three queues are filtered in priority order
high → medium → low under the shared budget of 3 advancements. -/
def processServerTasks (simTime : Int) (srv : Server) (store : List Task)
    (completedIds failedIds : List Nat) : PassResult :=
  if srv.healthStatus = .failed then
    let allIds := srv.queueHigh ++ srv.queueMedium ++ srv.queueLow
    { server := { srv with
        queueHigh := [], queueMedium := [], queueLow := []
        processingTasks := [], currentLoad := 0 }
      store := allIds.foldl (fun st id => updateTask st id markTaskFailed) store
      completedIds := completedIds
      failedIds := failedIds ++ allIds
      trace := [] }
  else
    let r1 := procQueue simTime srv.queueHigh (initPass srv store completedIds failedIds)
    let r2 := procQueue simTime srv.queueMedium r1.2.1
    let r3 := procQueue simTime srv.queueLow r2.2.1
    let fin := r3.2.1
    { server := { srv with
        queueHigh := r1.1, queueMedium := r2.1, queueLow := r3.1
        currentLoad := fin.currentLoad, totalProcessed := fin.totalProcessed
        responseTimeHistory := fin.responseTimeHistory
        processingTasks := fin.processingTasks }
      store := fin.store
      completedIds := fin.completedIds
      failedIds := fin.failedIds
      trace := r1.2.2 ++ r2.2.2 ++ r3.2.2 }

/-- One `forEach` iteration of the per-server processing loop: run the
pass for `srv` against the threaded store/collections. -/
def procServersStep (simTime : Int)
    (acc : List Server × List Task × List Nat × List Nat) (srv : Server) :
    List Server × List Task × List Nat × List Nat :=
  let r := processServerTasks simTime srv acc.2.1 acc.2.2.1 acc.2.2.2
  (acc.1 ++ [r.server], r.store, r.completedIds, r.failedIds)

/-- Source `this.servers.forEach(server => this.processServerTasks(server))`:
process every server in order, threading the store and the collections. -/
def processAllServers (s : SimState) : SimState :=
  let r := s.servers.foldl (procServersStep s.simulationTime)
    ([], s.tasks, s.completedTasks, s.failedTasks)
  { s with servers := r.1, tasks := r.2.1, completedTasks := r.2.2.1
           failedTasks := r.2.2.2 }

/-! ### `ageTasks` (lines 689-706) -/

/-- The aging rule for one task: a `processing` task whose time remaining to
its SLA deadline is below 30% of its *current* priority's target escalates
one level (low→medium, medium→high; high unchanged).  Only the `priority`
field changes — the task is not moved between queues.  (On integer inputs
the exact `3/10` comparison agrees with the binary64 `* 0.3`.) -/
def ageTaskStep (simTime : Int) (t : Task) : Task :=
  if t.status = .processing then
    let slaTimeRemaining := t.slaDeadline - simTime
    if (slaTimeRemaining : ℚ) < (slaTarget t.priority : ℚ) * (3 / 10) then
      match t.priority with
      | .low => { t with priority := .medium }
      | .medium => { t with priority := .high }
      | .high => t
    else t
  else t

/-- Source `ageTasks`: apply the aging rule to every task object in `this.tasks`. -/
def ageTasks (s : SimState) : SimState :=
  { s with tasks := s.tasks.map (ageTaskStep s.simulationTime) }

/-! ### `updateServerHealth` (lines 708-753) -/

/-- The health update for one server.  `now` is the `Date.now()` reading,
`r` the `Math.random()` draw of the failure trial.  The `recovering →
healthy` transition is the separate `setTimeout` callback
(`delayedRecovery` below).  The load thresholds compare the load *ratio*
against the literals 80/60, exactly as the source does. -/
def healthStep (cfg : Config) (now : Int) (r : ℚ) (srv : Server) : Server :=
  let s1 :=
    if srv.healthStatus = .healthy ∧ r < cfg.serverFailureRate * 3 then
      { srv with healthStatus := .failed, failureTime := some now
                 recoveryTime := some (now + cfg.serverRecoveryTime) }
    else srv
  let s2 :=
    match s1.recoveryTime with
    | some rt =>
      if s1.healthStatus = HealthStatus.failed ∧ now ≥ rt then { s1 with healthStatus := .recovering }
      else s1
    | none => s1
  let s3 :=
    if s2.healthStatus = .healthy then
      if (s2.currentLoad : ℚ) / (s2.capacity : ℚ) > 80 then
        { s2 with healthStatus := .degraded }
      else s2
    else if s2.healthStatus = .degraded then
      if (s2.currentLoad : ℚ) / (s2.capacity : ℚ) < 60 then
        { s2 with healthStatus := .healthy }
      else s2
    else s2
  let totalTime : Int := max 1 (now - s3.creationTime)
  let downTime : Int :=
    match s3.failureTime with
    | some ft => min (now - ft) cfg.serverRecoveryTime
    | none => 0
  { s3 with uptime := max 0 (((totalTime - downTime : Int) : ℚ) / (totalTime : ℚ) * 100) }

/-- Source `updateServerHealth`: run the health update over every server; the draw
stream is indexed by server position (draws are universally quantified
wherever this matters, so the reindexing relative to the source's
sequential `Math.random()` calls is harmless). -/
def updateServerHealth (s : SimState) (now : Int) (draws : Nat → ℚ) : SimState :=
  { s with servers := s.servers.mapIdx (fun i srv => healthStep s.config now (draws i) srv) }

/-- The `setTimeout(() => ..., 2000)` callback scheduled when a server
enters `recovering`: if the server is still `recovering` when it fires, it
becomes `healthy` and its failure/recovery stamps clear. -/
def delayedRecovery (s : SimState) (serverId : Nat) : SimState :=
  { s with servers := updateServer s.servers serverId (fun srv =>
      if srv.healthStatus = .recovering then
        { srv with healthStatus := .healthy, failureTime := none, recoveryTime := none }
      else srv) }

/-! ### Manual overrides (lines 965-987) -/

/-- Source `simulateRandomFailure`: fail a uniformly drawn healthy-or-degraded
server (no-op when none exists). -/
def simulateRandomFailure (s : SimState) (now : Int) (r : ℚ) : SimState :=
  let healthy := s.servers.filter
    (fun srv => srv.healthStatus = .healthy || srv.healthStatus = .degraded)
  if healthy.length > 0 then
    match healthy[(⌊r * (healthy.length : ℚ)⌋).toNat]? with
    | some sel =>
      { s with servers := updateServer s.servers sel.id (fun srv =>
          { srv with healthStatus := .failed, failureTime := some now
                     recoveryTime := some (now + s.config.serverRecoveryTime) }) }
    | none => s
  else s

/-- Source `recoverAllServers`: force every failed/recovering server healthy. -/
def recoverAllServers (s : SimState) : SimState :=
  { s with servers := s.servers.map (fun srv =>
      if srv.healthStatus = .failed ∨ srv.healthStatus = .recovering then
        { srv with healthStatus := .healthy, failureTime := none, recoveryTime := none }
      else srv) }

/-! ### Metrics (lines 755-853, 1411-1535) -/

/-- A computable stand-in for the binary64 `Math.sqrt` on the rational
stand-ins of the variance values.  The engine only stores these values
(`loadFairness`); no claim depends on them, so the approximation is
irrelevant — only the shape of the record update matters. -/
def sqrtQ (x : ℚ) : ℚ :=
  ((Nat.sqrt (x.num.toNat * x.den) : Int) : ℚ) / (x.den : ℚ)

/-- Response time of a completed task looked up through the store
(`task.responseTime`, always set on completed tasks; default 0 keeps the
lookup total). -/
def respTimeOf (store : List Task) (id : Nat) : Int :=
  ((findTask store id).bind Task.responseTime).getD 0

/-- Result record of `calculateSLACompliance`. -/
structure SlaCompliance where
  high : ℚ
  medium : ℚ
  low : ℚ
  overall : ℚ
deriving DecidableEq, Repr

/-- Tasks of the completed collection, dereferenced. -/
def completedTaskObjs (s : SimState) : List Task :=
  s.completedTasks.filterMap (findTask s.tasks)

/-- Source `calculateSLACompliance`: per-priority and overall percentage of
completed tasks whose response time met the target of their (current)
priority; 100 where the bucket is empty. -/
def calculateSLACompliance (s : SimState) : SlaCompliance :=
  let cTasks := completedTaskObjs s
  let per := fun (p : Priority) =>
    let pts := cTasks.filter (fun t => t.priority = p)
    if pts.length > 0 then
      ((pts.filter (fun t => t.responseTime.getD 0 ≤ slaTarget p)).length : ℚ)
        / (pts.length : ℚ) * 100
    else 100
  let overall :=
    if cTasks.length > 0 then
      ((cTasks.filter (fun t => t.responseTime.getD 0 ≤ slaTarget t.priority)).length : ℚ)
        / (cTasks.length : ℚ) * 100
    else 100
  { high := per .high, medium := per .medium, low := per .low, overall := overall }

/-- Source `calculateAdvancedMetrics` (the part that mutates engine state): push
the per-tick average response time, throughput, overall SLA compliance,
failure rate, timestamp and the three percentiles.  The remaining
computations of the source function only feed `textContent` updates. -/
def calculateAdvancedMetrics (s : SimState) : SimState :=
  let rts := (s.completedTasks.map (respTimeOf s.tasks)).insertionSort (· ≤ ·)
  let avgResponseTime : ℚ :=
    if rts.length > 0 then ((rts.map (fun t => (t : ℚ))).sum) / (rts.length : ℚ) else 0
  let p50 := if rts.length > 0 then getPercentile rts 50 else 0
  let p90 := if rts.length > 0 then getPercentile rts 90 else 0
  let p95 := if rts.length > 0 then getPercentile rts 95 else 0
  let throughput : ℚ :=
    if s.simulationTime > 0 then (s.completedTasks.length : ℚ) / ((s.simulationTime : Int) : ℚ)
    else 0
  let sla := calculateSLACompliance s
  let totalTasks := s.completedTasks.length + s.failedTasks.length
  let failureRate : ℚ :=
    if totalTasks > 0 then (s.failedTasks.length : ℚ) / (totalTasks : ℚ) * 100 else 0
  { s with metrics := { s.metrics with
      responseTime := s.metrics.responseTime ++ [avgResponseTime]
      throughput := s.metrics.throughput ++ [throughput]
      slaCompliance := s.metrics.slaCompliance ++ [sla.overall]
      failureRate := s.metrics.failureRate ++ [failureRate]
      timestamps := s.metrics.timestamps ++ [s.simulationTime]
      p50 := s.metrics.p50 ++ [p50]
      p90 := s.metrics.p90 ++ [p90]
      p95 := s.metrics.p95 ++ [p95] } }

/-- Source `updateTaskProgress`: recompute `this.taskProgress` from the task
collections. -/
def updateTaskProgress (s : SimState) : SimState :=
  let pending := (s.tasks.filter (fun t => t.status = .pending)).length
  let inProgress := (s.tasks.filter (fun t => t.status = .processing)).length
  let completed := s.completedTasks.length
  let failedN := s.failedTasks.length
  let completionPercentage : ℚ :=
    if s.config.taskCount > 0 then
      ((completed + failedN : Nat) : ℚ) / (s.config.taskCount : ℚ) * 100
    else 0
  let completionRate : ℚ :=
    if s.simulationTime > 0 then
      (completed : ℚ) / (((s.simulationTime : Int) : ℚ) * (1 / 10))
    else 0
  let successRate : ℚ :=
    if completed + failedN > 0 then
      (completed : ℚ) / ((completed + failedN : Nat) : ℚ) * 100
    else 100
  let eta : ℚ :=
    if completionRate > 0 ∧ pending + inProgress > 0 then
      ((pending + inProgress : Nat) : ℚ) / completionRate
    else 0
  let tp : TaskProgress :=
    { total := s.config.taskCount, pending := pending, inProgress := inProgress
      completed := completed, failedCount := failedN
      completionPercentage := completionPercentage
      completionRate := completionRate, successRate := successRate, eta := eta }
  { s with taskProgress := some tp }

/-- Source `calculateMetrics` (lines 1491-1535).  Reading
`this.taskProgress.completionRate` on an undefined `taskProgress` is a
`TypeError` (first component = state as mutated so far, second = `true`
when the function threw).  After the four pushes into the arrays that do
exist, `this.metrics.successRate.push(...)` throws when the field is
absent, and `this.metrics.completionVelocity.push(...)` likewise;
`timestamps` is only pushed when neither threw. -/
def calculateMetrics (s : SimState) : SimState × Bool :=
  match s.taskProgress with
  | none => (s, true)
  | some tp =>
    let avgResponseTime : ℚ :=
      if s.completedTasks.length > 0 then
        ((s.completedTasks.map (fun id => (respTimeOf s.tasks id : ℚ))).sum)
          / (s.completedTasks.length : ℚ)
      else 0
    let throughput := tp.completionRate
    let healthy := s.servers.filter (fun srv => srv.healthStatus = .healthy)
    let totalCapacity := (healthy.map Server.capacity).sum
    let totalLoad := (healthy.map Server.currentLoad).sum
    let resourceUtilization : ℚ :=
      if totalCapacity > 0 then ((totalLoad : ℚ) / (totalCapacity : ℚ)) * 100 else 0
    let loads := healthy.map (fun srv => (srv.currentLoad : ℚ))
    let avgLoad := loads.sum / (max loads.length 1 : ℚ)
    let variance :=
      ((loads.map (fun l => (l - avgLoad) ^ 2)).sum) / (max loads.length 1 : ℚ)
    let standardDeviation := sqrtQ variance
    let successRateVal := tp.successRate
    let m1 := { s.metrics with
      responseTime := s.metrics.responseTime ++ [avgResponseTime]
      throughput := s.metrics.throughput ++ [throughput]
      resourceUtilization := s.metrics.resourceUtilization ++ [resourceUtilization]
      loadFairness := s.metrics.loadFairness ++ [standardDeviation] }
    match m1.successRate with
    | none => ({ s with metrics := m1 }, true)
    | some sr =>
      let m2 := { m1 with successRate := some (sr ++ [successRateVal]) }
      match m2.completionVelocity with
      | none => ({ s with metrics := m2 }, true)
      | some cv =>
        let m3 := { m2 with
          completionVelocity := some (cv ++ [throughput])
          timestamps := m2.timestamps ++ [s.simulationTime] }
        ({ s with metrics := m3 }, false)

/-! ### `processSimulationStep` (lines 582-615) -/

/-- Source `processSimulationStep`: advance the clock, update health on every 3rd
tick, run each server's scheduling pass, age the tasks, record metrics
(`calculateAdvancedMetrics`, then — after the UI refreshers —
`updateTaskProgress` and `calculateMetrics`), and finally check for
completion.  The second component is `true` when the step aborted with the
JS `TypeError` thrown inside `calculateMetrics`; the first component is
the state exactly as mutated up to the throw. -/
def processSimulationStep (s : SimState) (now : Int) (draws : Nat → ℚ) :
    SimState × Bool :=
  let s1 := { s with simulationTime := s.simulationTime + 1 }
  let s2 := if s1.simulationTime % 3 = 0 then updateServerHealth s1 now draws else s1
  let s3 := processAllServers s2
  let s4 := ageTasks s3
  let s5 := calculateAdvancedMetrics s4
  let s6 := updateTaskProgress s5
  match calculateMetrics s6 with
  | (s7, true) => (s7, true)
  | (s7, false) =>
    let totalTasksGenerated := s7.currentTaskId - 1
    let allTasksProcessed :=
      s7.completedTasks.length + s7.failedTasks.length ≥
        min totalTasksGenerated s7.config.taskCount
    if allTasksProcessed ∧ totalTasksGenerated ≥ s7.config.taskCount then
      ({ s7 with simulationState := .completedMode }, false)
    else (s7, false)

/-! ### Reachability -/

/-- States reachable from a reset: any `resetSimulation` output, closed
under the engine's state-mutating operations (task generation, simulation
steps — including aborted ones, which in the source leave their partial
mutations behind —, manual failure/recovery, the delayed recovery callback
and mode changes by the start/pause/resume/stop controls).  Random draws
and clock readings are universally quantified. -/
inductive Reachable : SimState → Prop
  | reset (s : SimState) (now : Int) (ws : Nat → ℚ) :
      Reachable (resetSimulation s now ws)
  | genTask {s : SimState} (rProc rPrio rSel : ℚ) :
      Reachable s → Reachable (generateTask s rProc rPrio rSel)
  | step {s : SimState} (now : Int) (draws : Nat → ℚ) :
      Reachable s → Reachable (processSimulationStep s now draws).1
  | manualFailure {s : SimState} (now : Int) (r : ℚ) :
      Reachable s → Reachable (simulateRandomFailure s now r)
  | recoverAll {s : SimState} :
      Reachable s → Reachable (recoverAllServers s)
  | delayed {s : SimState} (serverId : Nat) :
      Reachable s → Reachable (delayedRecovery s serverId)
  | setMode {s : SimState} (m : SimMode) :
      Reachable s → Reachable { s with simulationState := m }

/-! ### Concrete fixtures used by counterexamples and witnesses -/

/-- A configuration whose priority percentages sum to 180 (each slider at
60%): normalization cannot repair it. -/
def cfgAll60 : Config :=
  { defaultConfig with pdHigh := 60, pdMedium := 60, pdLow := 60 }

/-- A configuration summing to 90: normalization lifts `low` to 40. -/
def cfgShort : Config :=
  { defaultConfig with pdHigh := 20, pdMedium := 50, pdLow := 20 }

/-- A structurally invalid configuration (percentages sum to 150). -/
def cfgInvalid : Config :=
  { defaultConfig with pdHigh := 90, pdMedium := 40, pdLow := 20 }

/-- A prior state carrying visible history (one completed task id) and the
invalid configuration, to observe what `resetSimulation` does to it. -/
def sPrior : SimState :=
  { initialSim with completedTasks := [7], config := cfgInvalid }

/-- A minimal healthy server fixture. -/
def mkPlainServer (i : Nat) : Server :=
  { id := i, currentLoad := 0, capacity := 100, weight := 1
    healthStatus := .healthy, responseTimeHistory := []
    queueHigh := [], queueMedium := [], queueLow := []
    processingTasks := [], totalProcessed := 0, uptime := 100
    lastHealthCheck := 0, failureTime := none, recoveryTime := none
    creationTime := 0 }

/-- A processing task fixture with the given id, priority, remaining time
and SLA deadline. -/
def mkProcTask (i : Nat) (p : Priority) (rem dl : Int) : Task :=
  { id := i, priority := p, arrivalTime := 0, processingTime := rem
    remainingTime := rem, slaDeadline := dl, assignedServer := some 1
    completionTime := none, responseTime := none, status := .processing
    failedFlag := false }

/-- Server 1 of the re-homing scenario: three eligible medium-queue tasks
and, in the low queue, task 4 — which aging is about to escalate. -/
def srvC2 : Server :=
  { mkPlainServer 1 with queueMedium := [1, 2, 3], queueLow := [4]
                         processingTasks := [1, 2, 3, 4], currentLoad := 20000 }

/-- The re-homing scenario state at tick 4000: task 4 (assigned while
`low`, already aged once to `medium`) has 1000 ms to its deadline —
below 30% of the medium target — so the next aging pass escalates it to
`high`; tasks 1-3 stay `medium`. -/
def sC2 : SimState :=
  { initialSim with
    servers := [srvC2]
    tasks := [mkProcTask 1 .medium 5000 20000, mkProcTask 2 .medium 5000 20000,
              mkProcTask 3 .medium 5000 20000, mkProcTask 4 .medium 5000 5000]
    currentTaskId := 5
    simulationTime := 4000
    weightedRoundRobinCounters := [0] }

/-- The failed server of the queue-drain scenario: one high- and one
low-priority queued task. -/
def srvFailed : Server :=
  { mkPlainServer 1 with healthStatus := .failed
                         queueHigh := [1], queueLow := [2]
                         processingTasks := [1, 2], currentLoad := 3000 }

/-- Store for the queue-drain scenario. -/
def storeFailed : List Task :=
  [mkProcTask 1 .high 1000 2000, mkProcTask 2 .low 2000 10000]

/-- Server for the budget/priority-order witness: four eligible high-queue
tasks, one medium, one low. -/
def srvBudget : Server :=
  { mkPlainServer 1 with queueHigh := [1, 2, 3, 4], queueMedium := [5]
                         queueLow := [6], processingTasks := [1, 2, 3, 4, 5, 6]
                         currentLoad := 7500 }

/-- Store for the budget/priority-order witness. -/
def storeBudget : List Task :=
  [mkProcTask 1 .high 1500 2000, mkProcTask 2 .high 1500 2000,
   mkProcTask 3 .high 1500 2000, mkProcTask 4 .high 1500 2000,
   mkProcTask 5 .medium 1500 5000, mkProcTask 6 .low 1500 10000]

/-- Three identical healthy servers (capacity 100, weight 1) for the
round-robin scenario. -/
def rrServers : List Server :=
  [mkPlainServer 1, mkPlainServer 2, mkPlainServer 3]

/-- The expected result of the aging pass on `sC2`: only task 4's priority
changed (medium → high); queues and everything else untouched. -/
def sC2aged : SimState :=
  { sC2 with tasks := [mkProcTask 1 .medium 5000 20000, mkProcTask 2 .medium 5000 20000,
                       mkProcTask 3 .medium 5000 20000,
                       { mkProcTask 4 .medium 5000 5000 with priority := .high }] }

/-- State used by the aging/priority witness: one processing task close to
its deadline. -/
def sAging : SimState :=
  { initialSim with
    servers := [srvC2]
    tasks := [mkProcTask 1 .low 5000 5000]
    currentTaskId := 2
    simulationTime := 4000
    weightedRoundRobinCounters := [0] }

/-! ### Named forms of the per-task transitions of `procQueue`

These repeat, as standalone definitions, the task/state updates occurring
inside `procQueue`; the unfolding lemmas below prove that `procQueue`
steps through exactly these. -/

/-- One advancement: subtract `min(1000, remainingTime)`. -/
def advTask (t : Task) : Task :=
  { t with remainingTime := t.remainingTime - min 1000 t.remainingTime }

/-- A finalised (completed) task as produced by the pass. -/
def completeTask (simTime : Int) (t : Task) : Task :=
  { advTask t with
    completionTime := some simTime
    responseTime := some (simTime - t.arrivalTime)
    status := .completed }

/-- The pass context after completing task `t` (id `id`). -/
def completeSt (simTime : Int) (st : PassSt) (id : Nat) (t : Task) : PassSt :=
  { store := updateTask st.store id (fun _ => completeTask simTime t)
    completedIds := st.completedIds ++ [id]
    failedIds := st.failedIds
    currentLoad := max 0 (st.currentLoad - t.processingTime)
    totalProcessed := st.totalProcessed + 1
    responseTimeHistory := pushHistory st.responseTimeHistory (simTime - t.arrivalTime)
    processingTasks := st.processingTasks.erase id
    counter := st.counter + 1 }

/-- The pass context after advancing (but not finishing) task `t`. -/
def advanceSt (st : PassSt) (id : Nat) (t : Task) : PassSt :=
  { st with
    store := updateTask st.store id (fun _ => advTask t)
    counter := st.counter + 1 }

/-! ## Claim C4 — `normalizePriorityDistribution`

The claim ("for every starting values ... the three shares sum to exactly
100") fails: the clamp of the adjusted `low` share to `[0, 100]` breaks the
sum whenever `high + medium` exceeds 100 (or is negative). -/

/-- C4 counterexample: with all three sliders at 60, normalization sets
`low` to `max 0 (60 + (100 - 180)) = 0` and the shares sum to 120, not
100, refuting the claim as stated. -/
theorem normalizePriorityDistribution_counterexample :
    ¬ ((normalizePriorityDistribution cfgAll60).pdHigh
        + (normalizePriorityDistribution cfgAll60).pdMedium
        + (normalizePriorityDistribution cfgAll60).pdLow = 100) := by
  decide

/-- C4 (amended): whenever the `high` and `medium` shares sum to a value in
`[0, 100]`, `normalizePriorityDistribution` leaves `high` and `medium`
untouched and the three shares sum to exactly 100 afterwards; outside that
range the clamp on `low` leaves the sum different from 100. -/
theorem normalizePriorityDistribution_sum (c : Config)
    (h0 : 0 ≤ c.pdHigh + c.pdMedium) (h100 : c.pdHigh + c.pdMedium ≤ 100) :
    (normalizePriorityDistribution c).pdHigh = c.pdHigh ∧
    (normalizePriorityDistribution c).pdMedium = c.pdMedium ∧
    (normalizePriorityDistribution c).pdHigh
      + (normalizePriorityDistribution c).pdMedium
      + (normalizePriorityDistribution c).pdLow = 100 := by
  unfold normalizePriorityDistribution
  dsimp only
  split
  · refine ⟨rfl, rfl, ?_⟩
    dsimp only
    omega
  · refine ⟨rfl, rfl, ?_⟩
    omega

/-- C4 witness: the amended theorem applied to the concrete configuration
20/50/20, whose normalization returns 20/50/30. -/
theorem normalizePriorityDistribution_sum_witness :
    (0 ≤ cfgShort.pdHigh + cfgShort.pdMedium ∧ cfgShort.pdHigh + cfgShort.pdMedium ≤ 100) ∧
    ((normalizePriorityDistribution cfgShort).pdHigh = cfgShort.pdHigh ∧
     (normalizePriorityDistribution cfgShort).pdMedium = cfgShort.pdMedium ∧
     (normalizePriorityDistribution cfgShort).pdHigh
       + (normalizePriorityDistribution cfgShort).pdMedium
       + (normalizePriorityDistribution cfgShort).pdLow = 100) :=
  ⟨⟨by decide, by decide⟩,
   normalizePriorityDistribution_sum cfgShort (by decide) (by decide)⟩

/-! ## Claim C8 — consistent hashing -/

/-- One step of the source hash equals one step of the spec's rolling hash:
`ToInt32(ToInt32(h*32) - h + c) = ToInt32(31*h + c)`. -/
theorem simpleHashStep_eq (h : Int) (c : Nat) :
    simpleHashStep h c = int32 (31 * h + c) := by
  unfold simpleHashStep int32
  omega

/-- The whole fold agrees with the spec's rolling hash from any seed. -/
theorem foldl_simpleHashStep_eq (codes : List Nat) :
    ∀ h : Int, codes.foldl simpleHashStep h
      = codes.foldl (fun h c => int32 (31 * h + c)) h := by
  induction codes with
  | nil => intro h; rfl
  | cons c rest ih =>
    intro h
    simp only [List.foldl_cons, simpleHashStep_eq]
    exact ih _

/-- C8: on a non-empty healthy list, `consistentHashingSelection` returns
`healthyServers[abs(h) mod length]` where `h` is the spec's signed-32-bit
rolling hash of the decimal id string, and the selection is a deterministic
function of the task id and the server list. -/
theorem consistentHashing_spec (servers : List Server) (task : Task)
    (hne : servers ≠ []) :
    (∃ srv, consistentHashingSelection servers task = some srv ∧
        servers[specHashIndex task.id servers.length]? = some srv) ∧
    (∀ codes, simpleHash codes = specRollingHash codes) ∧
    (∀ task' : Task, task'.id = task.id →
        consistentHashingSelection servers task' = consistentHashingSelection servers task) := by
  have hhash : ∀ codes, simpleHash codes = specRollingHash codes := by
    intro codes
    unfold simpleHash specRollingHash
    rw [foldl_simpleHashStep_eq]
  have hlen : 0 < servers.length := List.length_pos.mpr hne
  refine ⟨?_, hhash, ?_⟩
  · have hidx : specHashIndex task.id servers.length < servers.length :=
      Nat.mod_lt _ hlen
    refine ⟨servers.get ⟨specHashIndex task.id servers.length, hidx⟩, ?_, ?_⟩
    · unfold consistentHashingSelection specHashIndex
      rw [hhash]
      exact List.getElem?_eq_getElem hidx
    · exact List.getElem?_eq_getElem hidx
  · intro task' hid
    unfold consistentHashingSelection
    rw [hid]

/-- C8 witness: a singleton healthy list; task id 1 hashes to 49 and maps
to index 0. -/
theorem consistentHashing_spec_witness :
    (rrServers ≠ []) ∧
    ((∃ srv, consistentHashingSelection rrServers (mkProcTask 7 .low 100 100) = some srv ∧
        rrServers[specHashIndex (mkProcTask 7 .low 100 100).id rrServers.length]? = some srv) ∧
     (∀ codes, simpleHash codes = specRollingHash codes) ∧
     (∀ task' : Task, task'.id = (mkProcTask 7 .low 100 100).id →
        consistentHashingSelection rrServers task'
          = consistentHashingSelection rrServers (mkProcTask 7 .low 100 100))) :=
  ⟨by decide, consistentHashing_spec rrServers (mkProcTask 7 .low 100 100) (by decide)⟩

/-! ## Claim C10 — `getPercentile` -/

/-- C10: `getPercentile` matches the clamped-index formula by definition,
returns 0 on the empty array, returns the element of a singleton for every
percentile, and is monotone in the percentile for a fixed sorted array. -/
theorem getPercentile_spec (l : List Int) (p q : ℚ)
    (hs : l.Sorted (· ≤ ·)) (hpq : p ≤ q) :
    (getPercentile l p =
      if l.length = 0 then 0
      else l.getD (max 0 (min (⌈p / 100 * (l.length : ℚ)⌉ - 1)
        ((l.length : Int) - 1))).toNat 0) ∧
    (∀ r : ℚ, getPercentile [] r = 0) ∧
    (∀ (x : Int) (r : ℚ), getPercentile [x] r = x) ∧
    getPercentile l p ≤ getPercentile l q := by
  refine ⟨rfl, fun r => rfl, fun x r => ?_, ?_⟩
  · show (if _ then _ else _) = x
    rw [if_neg (by simp)]
    dsimp only
    have hidx : (max 0 (min (⌈r / 100 * (([x] : List Int).length : ℚ)⌉ - 1)
        ((([x] : List Int).length : Int) - 1))).toNat = 0 := by
      simp only [List.length_singleton]
      omega
    rw [hidx]
    rfl
  · rcases hl : l with _ | ⟨a, l'⟩
    · rfl
    · rw [← hl]
      have hn0 : l.length ≠ 0 := by rw [hl]; simp
      have hnpos : 0 < l.length := Nat.pos_of_ne_zero hn0
      unfold getPercentile
      rw [if_neg hn0, if_neg hn0]
      dsimp only
      have hceil : ⌈p / 100 * (l.length : ℚ)⌉ ≤ ⌈q / 100 * (l.length : ℚ)⌉ := by
        apply Int.ceil_le_ceil
        have hn : (0 : ℚ) ≤ (l.length : ℚ) := by positivity
        have : p / 100 ≤ q / 100 := by linarith
        exact mul_le_mul_of_nonneg_right this hn
      set ip : Int := max 0 (min (⌈p / 100 * (l.length : ℚ)⌉ - 1) ((l.length : Int) - 1)) with hip
      set iq : Int := max 0 (min (⌈q / 100 * (l.length : ℚ)⌉ - 1) ((l.length : Int) - 1)) with hiq
      have hle : ip.toNat ≤ iq.toNat := by omega
      have hlt : iq.toNat < l.length := by omega
      have hltp : ip.toNat < l.length := lt_of_le_of_lt hle hlt
      rw [List.getD_eq_getElem?_getD, List.getD_eq_getElem?_getD,
        List.getElem?_eq_getElem hltp, List.getElem?_eq_getElem hlt]
      simp only [Option.getD_some]
      exact List.Sorted.rel_get_of_le hs (a := ⟨ip.toNat, hltp⟩) (b := ⟨iq.toNat, hlt⟩) hle

/-- C10 witness: the sorted array `[1, 3, 7, 9]` with percentiles 50 and
90: the theorem instance yields `getPercentile` values 3 ≤ 9. -/
theorem getPercentile_spec_witness :
    (([1, 3, 7, 9] : List Int).Sorted (· ≤ ·) ∧ (50 : ℚ) ≤ 90) ∧
    ((getPercentile [1, 3, 7, 9] 50 =
        if ([1, 3, 7, 9] : List Int).length = 0 then 0
        else ([1, 3, 7, 9] : List Int).getD
          (max 0 (min (⌈(50 : ℚ) / 100 * (([1, 3, 7, 9] : List Int).length : ℚ)⌉ - 1)
            ((([1, 3, 7, 9] : List Int).length : Int) - 1))).toNat 0) ∧
     (∀ r : ℚ, getPercentile [] r = 0) ∧
     (∀ (x : Int) (r : ℚ), getPercentile [x] r = x) ∧
     getPercentile [1, 3, 7, 9] 50 ≤ getPercentile [1, 3, 7, 9] 90) :=
  ⟨⟨by decide, by norm_num⟩,
   getPercentile_spec [1, 3, 7, 9] 50 90 (by decide) (by norm_num)⟩

/-! ## Claim C5 — round-robin order and per-server counts -/

/-- Pointwise-equal predicates count equally. -/
theorem countP_congr_mem {α : Type} {l : List α} {p q : α → Bool}
    (h : ∀ a ∈ l, p a = q a) : l.countP p = l.countP q := by
  induction l with
  | nil => rfl
  | cons a rest ih =>
    rw [List.countP_cons, List.countP_cons, h a (by simp),
      ih (fun b hb => h b (by simp [hb]))]

/-- Closed form of the round-robin run: starting from cursor `c`, the
`k`-th selection is `servers[(c + k) % len]`. -/
theorem rrRun_eq_map (servers : List Server) (hne : servers.length ≠ 0) :
    ∀ (m c : Nat), rrRun servers m c
      = (List.range m).map (fun k => servers[(c + k) % servers.length]?) := by
  intro m
  induction m with
  | zero => intro c; rfl
  | succ m ih =>
    intro c
    rw [List.range_succ_eq_map]
    simp only [List.map_cons, List.map_map]
    unfold rrRun roundRobinSelection
    rw [if_neg hne]
    dsimp only
    congr 1
    rw [ih ((c + 1) % servers.length)]
    apply List.map_congr_left
    intro k _
    simp only [Function.comp_apply]
    rw [Nat.mod_add_mod]
    congr 2
    omega

/-- How many `k < M` satisfy `k % N = i` (for `i < N`). -/
theorem countP_range_mod (N i : Nat) (hN : 0 < N) (hi : i < N) :
    ∀ M : Nat, (List.range M).countP (fun k => k % N = i)
      = M / N + if i < M % N then 1 else 0 := by
  intro M
  induction M with
  | zero => simp
  | succ M ih =>
    rw [List.range_succ, List.countP_append, ih]
    have h0 := Nat.div_add_mod M N
    have h1 := Nat.div_add_mod (M + 1) N
    have hmlt : M % N < N := Nat.mod_lt _ hN
    have hm1lt : (M + 1) % N < N := Nat.mod_lt _ hN
    by_cases hdvd : N ∣ M + 1
    · have hd := Nat.succ_div_of_dvd hdvd
      have hexp : N * (M / N + 1) = N * (M / N) + N := by ring
      rw [hd] at h1
      rw [hexp] at h1
      rw [hd]
      simp only [List.countP_cons, List.countP_nil, Nat.zero_add]
      by_cases hc2 : M % N = i <;> by_cases hc1 : i < M % N <;>
        by_cases hc3 : i < (M + 1) % N <;> simp [hc1, hc2, hc3] <;> omega
    · have hd := Nat.succ_div_of_not_dvd hdvd
      rw [hd] at h1
      rw [hd]
      simp only [List.countP_cons, List.countP_nil, Nat.zero_add]
      by_cases hc2 : M % N = i <;> by_cases hc1 : i < M % N <;>
        by_cases hc3 : i < (M + 1) % N <;> simp [hc1, hc2, hc3] <;> omega

/-- Ceiling division: `(M + N - 1) / N` is `M / N` plus one unless `N`
divides `M`. -/
theorem ceil_div_eq (N M : Nat) (hN : 0 < N) :
    (M + N - 1) / N = M / N + if M % N = 0 then 0 else 1 := by
  have h0 := Nat.div_add_mod M N
  by_cases hr : M % N = 0
  · have heq : M + N - 1 = N * (M / N) + (N - 1) := by omega
    rw [heq, Nat.mul_add_div hN]
    rw [Nat.div_eq_of_lt (show N - 1 < N by omega), if_pos hr]
  · have hmlt : M % N < N := Nat.mod_lt _ hN
    have hexp : N * (M / N + 1) = N * (M / N) + N := by ring
    have heq : M + N - 1 = N * (M / N + 1) + (M % N - 1) := by omega
    rw [heq, Nat.mul_add_div hN]
    rw [Nat.div_eq_of_lt (show M % N - 1 < N by omega), if_neg hr]

/-- C5: for a fixed non-empty list of distinct servers and `M ≥ N`
selections from a reset cursor, round robin picks
`s0, s1, ..., s(N-1), s0, ...` in input order, and each server is selected
exactly `floor(M/N)` or `ceil(M/N)` times. -/
theorem roundRobin_order_and_counts (servers : List Server) (M : Nat)
    (hne : servers ≠ []) (hnd : servers.Nodup) (hM : servers.length ≤ M) :
    rrRun servers M 0
      = (List.range M).map (fun k => servers[k % servers.length]?) ∧
    ∀ i : Nat, i < servers.length →
      ((rrRun servers M 0).countP (fun o => o = servers[i]?) = M / servers.length ∨
       (rrRun servers M 0).countP (fun o => o = servers[i]?)
         = (M + servers.length - 1) / servers.length) := by
  have hlen : servers.length ≠ 0 := fun h => hne (List.eq_nil_of_length_eq_zero h)
  have hpos : 0 < servers.length := Nat.pos_of_ne_zero hlen
  have hform := rrRun_eq_map servers hlen M 0
  have hzero : rrRun servers M 0
      = (List.range M).map (fun k => servers[k % servers.length]?) := by
    rw [hform]
    apply List.map_congr_left
    intro k _
    rw [Nat.zero_add]
  refine ⟨hzero, ?_⟩
  intro i hi
  rw [hzero, List.countP_map]
  have hpt : ∀ k ∈ List.range M,
      ((fun o => decide (o = servers[i]?)) ∘ fun k => servers[k % servers.length]?) k
        = decide (k % servers.length = i) := by
    intro k _
    simp only [Function.comp_apply]
    have hidx : k % servers.length < servers.length := Nat.mod_lt _ hpos
    rw [decide_eq_decide]
    rw [List.getElem?_eq_getElem hidx, List.getElem?_eq_getElem hi]
    simp only [Option.some.injEq]
    constructor
    · intro h
      have h2 : servers.get ⟨k % servers.length, hidx⟩ = servers.get ⟨i, hi⟩ := by
        simpa [List.get_eq_getElem] using h
      have h3 := (List.Nodup.get_inj_iff hnd).mp h2
      simpa using h3
    · intro h
      simp only [h]
  rw [countP_congr_mem hpt, countP_range_mod servers.length i hpos hi M]
  rw [ceil_div_eq servers.length M hpos]
  by_cases hr : M % servers.length = 0
  · left
    rw [hr]
    simp
  · by_cases hil : i < M % servers.length
    · right
      rw [if_pos hil, if_neg hr]
    · left
      rw [if_neg hil]
      omega

/-- C5 witness: 3 identical servers, 6 selections: the order is
`[1,2,3,1,2,3]` and each server is picked exactly 2 = 6/3 times. -/
theorem roundRobin_order_and_counts_witness :
    (rrServers ≠ [] ∧ rrServers.Nodup ∧ rrServers.length ≤ 6) ∧
    (rrRun rrServers 6 0
      = (List.range 6).map (fun k => rrServers[k % rrServers.length]?) ∧
    ∀ i : Nat, i < rrServers.length →
      ((rrRun rrServers 6 0).countP (fun o => o = rrServers[i]?) = 6 / rrServers.length ∨
       (rrRun rrServers 6 0).countP (fun o => o = rrServers[i]?)
         = (6 + rrServers.length - 1) / rrServers.length)) :=
  ⟨⟨by decide, by decide, by decide⟩,
   roundRobin_order_and_counts rrServers 6 (by decide) (by decide) (by decide)⟩

/-! ## Store-lookup lemmas -/

/-- A found task carries the id it was looked up by. -/
theorem findTask_id {store : List Task} {id : Nat} {t : Task}
    (h : findTask store id = some t) : t.id = id := by
  have := List.find?_some h
  simpa using this

/-- Here `updateTask` affects exactly the lookups of the updated id (for update
functions that keep the id of the tasks they are applied to). -/
theorem findTask_updateTask (store : List Task) (i j : Nat) (f : Task → Task)
    (hf : ∀ t, t.id = i → (f t).id = t.id) :
    findTask (updateTask store i f) j
      = if j = i then (findTask store j).map f else findTask store j := by
  induction store with
  | nil =>
    simp only [findTask, updateTask, List.map_nil, List.find?_nil]
    split <;> rfl
  | cons t rest ih =>
    simp only [findTask, updateTask, List.map_cons] at ih ⊢
    by_cases hti : t.id = i
    · rw [if_pos hti]
      by_cases hj : j = i
      · subst hj
        rw [List.find?_cons_of_pos _ (by simp [hf t hti, hti]),
          List.find?_cons_of_pos _ (by simp [hti])]
        simp
      · rw [List.find?_cons_of_neg _ (by simp [hf t hti, hti]; omega),
          List.find?_cons_of_neg _ (by simp [hti]; omega)] at *
        rw [ih, if_neg hj]
    · rw [if_neg hti]
      by_cases htj : t.id = j
      · have hji : ¬ j = i := by omega
        rw [if_neg hji, List.find?_cons_of_pos _ (by simp [htj]),
          List.find?_cons_of_pos _ (by simp [htj])]
      · rw [List.find?_cons_of_neg _ (by simp [htj]),
          List.find?_cons_of_neg _ (by simp [htj])]
        exact ih

/-- Looking up through a map by an id-preserving function. -/
theorem findTask_map (g : Task → Task) (hg : ∀ t, (g t).id = t.id)
    (store : List Task) (j : Nat) :
    findTask (store.map g) j = (findTask store j).map g := by
  induction store with
  | nil => rfl
  | cons t rest ih =>
    simp only [findTask, List.map_cons] at ih ⊢
    by_cases htj : t.id = j
    · rw [List.find?_cons_of_pos _ (by simp [hg, htj]),
        List.find?_cons_of_pos _ (by simp [htj])]
      rfl
    · rw [List.find?_cons_of_neg _ (by simp [hg, htj]),
        List.find?_cons_of_neg _ (by simp [htj])]
      exact ih

/-! ## Unfolding lemmas for `procQueue` -/

/-- Budget exhausted: the element is kept and nothing changes. -/
theorem procQueue_cons_budget (simTime : Int) (id : Nat) (rest : List Nat)
    (st : PassSt) (h3 : st.counter ≥ 3) :
    procQueue simTime (id :: rest) st
      = (id :: (procQueue simTime rest st).1, (procQueue simTime rest st).2) := by
  rw [procQueue, if_pos h3]

/-- Dangling id (unreachable in the source): kept, nothing changes. -/
theorem procQueue_cons_missing (simTime : Int) (id : Nat) (rest : List Nat)
    (st : PassSt) (h3 : ¬ st.counter ≥ 3) (hft : findTask st.store id = none) :
    procQueue simTime (id :: rest) st
      = (id :: (procQueue simTime rest st).1, (procQueue simTime rest st).2) := by
  rw [procQueue, if_neg h3, hft]

/-- Already-finished task (`remainingTime ≤ 0`): kept, nothing changes. -/
theorem procQueue_cons_done (simTime : Int) (id : Nat) (rest : List Nat)
    (st : PassSt) (t : Task) (h3 : ¬ st.counter ≥ 3)
    (hft : findTask st.store id = some t) (hrem : t.remainingTime ≤ 0) :
    procQueue simTime (id :: rest) st
      = (id :: (procQueue simTime rest st).1, (procQueue simTime rest st).2) := by
  rw [procQueue, if_neg h3, hft]
  dsimp only
  rw [if_pos hrem]

/-- Advancement that completes the task: it is dropped from the queue,
finalised in the context, and recorded in the trace. -/
theorem procQueue_cons_complete (simTime : Int) (id : Nat) (rest : List Nat)
    (st : PassSt) (t : Task) (h3 : ¬ st.counter ≥ 3)
    (hft : findTask st.store id = some t) (hrem : ¬ t.remainingTime ≤ 0)
    (hfin : t.remainingTime - min 1000 t.remainingTime ≤ 0) :
    procQueue simTime (id :: rest) st
      = ((procQueue simTime rest (completeSt simTime st id t)).1,
         (procQueue simTime rest (completeSt simTime st id t)).2.1,
         (t, completeTask simTime t)
           :: (procQueue simTime rest (completeSt simTime st id t)).2.2) := by
  rw [procQueue, if_neg h3, hft]
  dsimp only
  rw [if_neg hrem, if_pos hfin]
  rfl

/-- Advancement that leaves work: the task is kept, its remaining time
drops by `min(1000, remainingTime)`, and the trace records it. -/
theorem procQueue_cons_advance (simTime : Int) (id : Nat) (rest : List Nat)
    (st : PassSt) (t : Task) (h3 : ¬ st.counter ≥ 3)
    (hft : findTask st.store id = some t) (hrem : ¬ t.remainingTime ≤ 0)
    (hfin : ¬ t.remainingTime - min 1000 t.remainingTime ≤ 0) :
    procQueue simTime (id :: rest) st
      = (id :: (procQueue simTime rest (advanceSt st id t)).1,
         (procQueue simTime rest (advanceSt st id t)).2.1,
         (t, advTask t)
           :: (procQueue simTime rest (advanceSt st id t)).2.2) := by
  rw [procQueue, if_neg h3, hft]
  dsimp only
  rw [if_neg hrem, if_neg hfin]
  rfl

/-! ## Budget accounting of `procQueue` -/

/-- Core accounting: the counter grows by exactly the number of recorded
advancements, any advancement requires entering below the budget, the
budget bound 3 is preserved, and every advancement starts from an eligible
task and subtracts `min(1000, remainingTime)`. -/
theorem procQueue_basic (simTime : Int) :
    ∀ (q : List Nat) (st : PassSt),
      (procQueue simTime q st).2.1.counter
        = st.counter + (procQueue simTime q st).2.2.length ∧
      ((procQueue simTime q st).2.2 ≠ [] → st.counter < 3) ∧
      (st.counter ≤ 3 → (procQueue simTime q st).2.1.counter ≤ 3) ∧
      (∀ e ∈ (procQueue simTime q st).2.2,
        0 < e.1.remainingTime ∧
        e.2.remainingTime = e.1.remainingTime - min 1000 e.1.remainingTime) := by
  intro q
  induction q with
  | nil =>
    intro st
    refine ⟨rfl, by simp [procQueue], fun h => h, by simp [procQueue]⟩
  | cons id rest ih =>
    intro st
    by_cases h3 : st.counter ≥ 3
    · rw [procQueue_cons_budget simTime id rest st h3]
      exact ih st
    · cases hft : findTask st.store id with
      | none =>
        rw [procQueue_cons_missing simTime id rest st h3 hft]
        exact ih st
      | some t =>
        by_cases hrem : t.remainingTime ≤ 0
        · rw [procQueue_cons_done simTime id rest st t h3 hft hrem]
          exact ih st
        · by_cases hfin : t.remainingTime - min 1000 t.remainingTime ≤ 0
          · rw [procQueue_cons_complete simTime id rest st t h3 hft hrem hfin]
            obtain ⟨A, _, C, D⟩ := ih (completeSt simTime st id t)
            have hc : (completeSt simTime st id t).counter = st.counter + 1 := rfl
            refine ⟨?_, fun _ => by omega, fun _ => C (by omega), ?_⟩
            · simp only [List.length_cons, A, hc]
              omega
            · intro e he
              rcases List.mem_cons.mp he with he | he
              · subst he
                exact ⟨show (0:Int) < t.remainingTime by omega, rfl⟩
              · exact D e he
          · rw [procQueue_cons_advance simTime id rest st t h3 hft hrem hfin]
            obtain ⟨A, _, C, D⟩ := ih (advanceSt st id t)
            have hc : (advanceSt st id t).counter = st.counter + 1 := rfl
            refine ⟨?_, fun _ => by omega, fun _ => C (by omega), ?_⟩
            · simp only [List.length_cons, A, hc]
              omega
            · intro e he
              rcases List.mem_cons.mp he with he | he
              · subst he
                exact ⟨show (0:Int) < t.remainingTime by omega, rfl⟩
              · exact D e he

/-- When a queue pass ends still below the budget, every eligible task of
the queue (distinct ids) was advanced: an advancement trace entry with its
start-store task object exists. -/
theorem procQueue_all_advanced (simTime : Int) :
    ∀ (q : List Nat) (st : PassSt), q.Nodup →
      (procQueue simTime q st).2.1.counter < 3 →
      ∀ id ∈ q, ∀ t, findTask st.store id = some t → 0 < t.remainingTime →
        ∃ post, (t, post) ∈ (procQueue simTime q st).2.2 := by
  intro q
  induction q with
  | nil =>
    intro st _ _ id hid
    exact absurd hid (List.not_mem_nil id)
  | cons id0 rest ih =>
    intro st hnd hcnt id hid t hft hrem
    have hnd' : rest.Nodup := hnd.of_cons
    have hid0 : id0 ∉ rest := (List.nodup_cons.mp hnd).1
    by_cases h3 : st.counter ≥ 3
    · exfalso
      rw [procQueue_cons_budget simTime id0 rest st h3] at hcnt
      dsimp only at hcnt
      have hA := (procQueue_basic simTime rest st).1
      omega
    · cases hft0 : findTask st.store id0 with
      | none =>
        rw [procQueue_cons_missing simTime id0 rest st h3 hft0] at hcnt ⊢
        rcases List.mem_cons.mp hid with hcase | hcase
        · subst hcase
          rw [hft0] at hft
          exact absurd hft (by simp)
        · exact ih st hnd' hcnt id hcase t hft hrem
      | some t0 =>
        by_cases hrem0 : t0.remainingTime ≤ 0
        · rw [procQueue_cons_done simTime id0 rest st t0 h3 hft0 hrem0] at hcnt ⊢
          rcases List.mem_cons.mp hid with hcase | hcase
          · subst hcase
            rw [hft0] at hft
            have : t0 = t := by injection hft
            subst this
            exact absurd hrem (by omega)
          · exact ih st hnd' hcnt id hcase t hft hrem
        · have hidpres : ∀ u : Task, u.id = id0 → ∀ v : Task, v.id = t0.id →
              v.id = u.id := by
            intro u hu v hv
            rw [hv, findTask_id hft0, hu]
          by_cases hfin0 : t0.remainingTime - min 1000 t0.remainingTime ≤ 0
          · rw [procQueue_cons_complete simTime id0 rest st t0 h3 hft0 hrem0 hfin0]
              at hcnt ⊢
            rcases List.mem_cons.mp hid with hcase | hcase
            · subst hcase
              rw [hft0] at hft
              have : t0 = t := by injection hft
              subst this
              exact ⟨completeTask simTime t0, by simp⟩
            · have hne : id ≠ id0 := fun h => hid0 (h ▸ hcase)
              have hkeep : findTask (completeSt simTime st id0 t0).store id
                  = findTask st.store id := by
                show findTask (updateTask st.store id0 _) id = _
                rw [findTask_updateTask st.store id0 id _
                  (fun u hu => by simp [completeTask, advTask, findTask_id hft0, hu])]
                rw [if_neg hne]
              obtain ⟨post, hpost⟩ :=
                ih (completeSt simTime st id0 t0) hnd' hcnt id hcase t
                  (hkeep ▸ hft) hrem
              exact ⟨post, by simp [hpost]⟩
          · rw [procQueue_cons_advance simTime id0 rest st t0 h3 hft0 hrem0 hfin0]
              at hcnt ⊢
            rcases List.mem_cons.mp hid with hcase | hcase
            · subst hcase
              rw [hft0] at hft
              have : t0 = t := by injection hft
              subst this
              exact ⟨advTask t0, by simp⟩
            · have hne : id ≠ id0 := fun h => hid0 (h ▸ hcase)
              have hkeep : findTask (advanceSt st id0 t0).store id
                  = findTask st.store id := by
                show findTask (updateTask st.store id0 _) id = _
                rw [findTask_updateTask st.store id0 id _
                  (fun u hu => by simp [advTask, findTask_id hft0, hu])]
                rw [if_neg hne]
              obtain ⟨post, hpost⟩ :=
                ih (advanceSt st id0 t0) hnd' hcnt id hcase t (hkeep ▸ hft) hrem
              exact ⟨post, by simp [hpost]⟩

/-! ## Claim C6 — failed-server queue drain -/

/-- Lookups through the fold that marks every queued task failed. -/
theorem foldl_markFailed (ids : List Nat) :
    ∀ (store : List Task) (j : Nat),
      findTask (ids.foldl (fun st id => updateTask st id markTaskFailed) store) j
        = if j ∈ ids then (findTask store j).map markTaskFailed
          else findTask store j := by
  induction ids with
  | nil =>
    intro store j
    simp
  | cons id rest ih =>
    intro store j
    rw [List.foldl_cons, ih (updateTask store id markTaskFailed) j,
      findTask_updateTask store id j markTaskFailed (fun _ _ => rfl)]
    by_cases hjr : j ∈ rest
    · rw [if_pos hjr, if_pos (List.mem_cons_of_mem _ hjr)]
      by_cases hji : j = id
      · rw [if_pos hji]
        cases findTask store j <;> rfl
      · rw [if_neg hji]
    · by_cases hji : j = id
      · rw [if_neg hjr, if_pos hji, if_pos (by simp [hji])]
      · rw [if_neg hjr, if_neg hji, if_neg (by simp [hji, hjr])]

/-- C6: a server that is `failed` at the start of its pass fails every task
in its three queues (status `failed`, appended in order to the failed
collection), leaves all queues and the in-flight set empty, zeroes
`currentLoad`, and advances nothing. -/
theorem processServerTasks_failed_drain (simTime : Int) (srv : Server)
    (store : List Task) (cIds fIds : List Nat)
    (hfail : srv.healthStatus = .failed) :
    (processServerTasks simTime srv store cIds fIds).server.queueHigh = [] ∧
    (processServerTasks simTime srv store cIds fIds).server.queueMedium = [] ∧
    (processServerTasks simTime srv store cIds fIds).server.queueLow = [] ∧
    (processServerTasks simTime srv store cIds fIds).server.processingTasks = [] ∧
    (processServerTasks simTime srv store cIds fIds).server.currentLoad = 0 ∧
    (processServerTasks simTime srv store cIds fIds).trace = [] ∧
    (processServerTasks simTime srv store cIds fIds).completedIds = cIds ∧
    (processServerTasks simTime srv store cIds fIds).failedIds
      = fIds ++ (srv.queueHigh ++ srv.queueMedium ++ srv.queueLow) ∧
    (∀ id ∈ srv.queueHigh ++ srv.queueMedium ++ srv.queueLow,
      id ∈ (processServerTasks simTime srv store cIds fIds).failedIds ∧
      ∀ t, findTask store id = some t →
        findTask (processServerTasks simTime srv store cIds fIds).store id
          = some { t with failedFlag := true, status := .failed }) := by
  unfold processServerTasks
  rw [if_pos hfail]
  refine ⟨rfl, rfl, rfl, rfl, rfl, rfl, rfl, rfl, ?_⟩
  intro id hid
  constructor
  · show id ∈ fIds ++ (srv.queueHigh ++ srv.queueMedium ++ srv.queueLow)
    simp only [List.mem_append] at hid ⊢
    tauto
  · intro t hft
    show findTask ((srv.queueHigh ++ srv.queueMedium ++ srv.queueLow).foldl
      (fun st i => updateTask st i markTaskFailed) store) id = _
    rw [foldl_markFailed _ store id, if_pos hid, hft]
    rfl

/-- C6 witness: a failed server holding one high- and one low-priority
queued task: both are failed and appended, queues and in-flight set end
empty, and load is reset to 0. -/
theorem processServerTasks_failed_drain_witness :
    srvFailed.healthStatus = .failed ∧
    ((processServerTasks 5 srvFailed storeFailed [] []).server.queueHigh = [] ∧
     (processServerTasks 5 srvFailed storeFailed [] []).server.queueMedium = [] ∧
     (processServerTasks 5 srvFailed storeFailed [] []).server.queueLow = [] ∧
     (processServerTasks 5 srvFailed storeFailed [] []).server.processingTasks = [] ∧
     (processServerTasks 5 srvFailed storeFailed [] []).server.currentLoad = 0 ∧
     (processServerTasks 5 srvFailed storeFailed [] []).trace = [] ∧
     (processServerTasks 5 srvFailed storeFailed [] []).completedIds = [] ∧
     (processServerTasks 5 srvFailed storeFailed [] []).failedIds
       = [] ++ (srvFailed.queueHigh ++ srvFailed.queueMedium ++ srvFailed.queueLow) ∧
     (∀ id ∈ srvFailed.queueHigh ++ srvFailed.queueMedium ++ srvFailed.queueLow,
       id ∈ (processServerTasks 5 srvFailed storeFailed [] []).failedIds ∧
       ∀ t, findTask storeFailed id = some t →
         findTask (processServerTasks 5 srvFailed storeFailed [] []).store id
           = some { t with failedFlag := true, status := .failed })) :=
  ⟨rfl, processServerTasks_failed_drain 5 srvFailed storeFailed [] [] rfl⟩

/-! ## Claim C7 — per-tick budget and strict priority order -/

/-- C7: in a non-failed server's pass, the trace decomposes into the high,
medium and low passes in that order; at most 3 advancements happen in
total; every advancement starts from an eligible task and subtracts
`min(1000, remainingTime)`; and work on a lower queue implies every
eligible task of the higher queues was already advanced. -/
theorem processServerTasks_budget_priority (simTime : Int) (srv : Server)
    (store : List Task) (cIds fIds : List Nat)
    (hfail : ¬ srv.healthStatus = .failed)
    (hH : srv.queueHigh.Nodup) (hM : srv.queueMedium.Nodup) :
    (processServerTasks simTime srv store cIds fIds).trace
      = (procQueue simTime srv.queueHigh (initPass srv store cIds fIds)).2.2
        ++ (procQueue simTime srv.queueMedium
            (procQueue simTime srv.queueHigh (initPass srv store cIds fIds)).2.1).2.2
        ++ (procQueue simTime srv.queueLow
            (procQueue simTime srv.queueMedium
              (procQueue simTime srv.queueHigh
                (initPass srv store cIds fIds)).2.1).2.1).2.2 ∧
    (processServerTasks simTime srv store cIds fIds).trace.length ≤ 3 ∧
    (∀ e ∈ (processServerTasks simTime srv store cIds fIds).trace,
      0 < e.1.remainingTime ∧
      e.2.remainingTime = e.1.remainingTime - min 1000 e.1.remainingTime) ∧
    ((procQueue simTime srv.queueMedium
        (procQueue simTime srv.queueHigh (initPass srv store cIds fIds)).2.1).2.2 ≠ [] →
      ∀ id ∈ srv.queueHigh, ∀ t, findTask store id = some t →
        0 < t.remainingTime →
        ∃ post, (t, post) ∈
          (procQueue simTime srv.queueHigh (initPass srv store cIds fIds)).2.2) ∧
    ((procQueue simTime srv.queueLow
        (procQueue simTime srv.queueMedium
          (procQueue simTime srv.queueHigh (initPass srv store cIds fIds)).2.1).2.1).2.2 ≠ [] →
      ∀ id ∈ srv.queueMedium, ∀ t,
        findTask (procQueue simTime srv.queueHigh (initPass srv store cIds fIds)).2.1.store id
          = some t →
        0 < t.remainingTime →
        ∃ post, (t, post) ∈
          (procQueue simTime srv.queueMedium
            (procQueue simTime srv.queueHigh (initPass srv store cIds fIds)).2.1).2.2) := by
  have htr : (processServerTasks simTime srv store cIds fIds).trace
      = (procQueue simTime srv.queueHigh (initPass srv store cIds fIds)).2.2
        ++ (procQueue simTime srv.queueMedium
            (procQueue simTime srv.queueHigh (initPass srv store cIds fIds)).2.1).2.2
        ++ (procQueue simTime srv.queueLow
            (procQueue simTime srv.queueMedium
              (procQueue simTime srv.queueHigh
                (initPass srv store cIds fIds)).2.1).2.1).2.2 := by
    unfold processServerTasks
    rw [if_neg hfail]
  have h0 : (initPass srv store cIds fIds).counter = 0 := rfl
  obtain ⟨A1, B1, C1, D1⟩ :=
    procQueue_basic simTime srv.queueHigh (initPass srv store cIds fIds)
  obtain ⟨A2, B2, C2, D2⟩ :=
    procQueue_basic simTime srv.queueMedium
      (procQueue simTime srv.queueHigh (initPass srv store cIds fIds)).2.1
  obtain ⟨A3, B3, C3, D3⟩ :=
    procQueue_basic simTime srv.queueLow
      (procQueue simTime srv.queueMedium
        (procQueue simTime srv.queueHigh (initPass srv store cIds fIds)).2.1).2.1
  refine ⟨htr, ?_, ?_, ?_, ?_⟩
  · rw [htr]
    have := C3 (by omega)
    simp only [List.length_append]
    omega
  · intro e he
    rw [htr] at he
    rcases List.mem_append.mp he with he | he
    · rcases List.mem_append.mp he with he | he
      · exact D1 e he
      · exact D2 e he
    · exact D3 e he
  · intro hmne
    have hcnt1 : (procQueue simTime srv.queueHigh
        (initPass srv store cIds fIds)).2.1.counter < 3 := B2 hmne
    exact procQueue_all_advanced simTime srv.queueHigh
      (initPass srv store cIds fIds) hH hcnt1
  · intro hlne
    have hcnt2 : (procQueue simTime srv.queueMedium
        (procQueue simTime srv.queueHigh
          (initPass srv store cIds fIds)).2.1).2.1.counter < 3 := B3 hlne
    exact procQueue_all_advanced simTime srv.queueMedium
      (procQueue simTime srv.queueHigh (initPass srv store cIds fIds)).2.1 hM hcnt2

/-- C7 witness: a healthy server with four eligible high-queue tasks and
one each in medium/low: the theorem instance bounds the pass at 3
advancements, all from the high queue. -/
theorem processServerTasks_budget_priority_witness :
    (¬ srvBudget.healthStatus = .failed ∧ srvBudget.queueHigh.Nodup ∧
      srvBudget.queueMedium.Nodup) ∧
    ((processServerTasks 9 srvBudget storeBudget [] []).trace
      = (procQueue 9 srvBudget.queueHigh (initPass srvBudget storeBudget [] [])).2.2
        ++ (procQueue 9 srvBudget.queueMedium
            (procQueue 9 srvBudget.queueHigh (initPass srvBudget storeBudget [] [])).2.1).2.2
        ++ (procQueue 9 srvBudget.queueLow
            (procQueue 9 srvBudget.queueMedium
              (procQueue 9 srvBudget.queueHigh
                (initPass srvBudget storeBudget [] [])).2.1).2.1).2.2 ∧
    (processServerTasks 9 srvBudget storeBudget [] []).trace.length ≤ 3 ∧
    (∀ e ∈ (processServerTasks 9 srvBudget storeBudget [] []).trace,
      0 < e.1.remainingTime ∧
      e.2.remainingTime = e.1.remainingTime - min 1000 e.1.remainingTime) ∧
    ((procQueue 9 srvBudget.queueMedium
        (procQueue 9 srvBudget.queueHigh (initPass srvBudget storeBudget [] [])).2.1).2.2 ≠ [] →
      ∀ id ∈ srvBudget.queueHigh, ∀ t, findTask storeBudget id = some t →
        0 < t.remainingTime →
        ∃ post, (t, post) ∈
          (procQueue 9 srvBudget.queueHigh (initPass srvBudget storeBudget [] [])).2.2) ∧
    ((procQueue 9 srvBudget.queueLow
        (procQueue 9 srvBudget.queueMedium
          (procQueue 9 srvBudget.queueHigh (initPass srvBudget storeBudget [] [])).2.1).2.1).2.2 ≠ [] →
      ∀ id ∈ srvBudget.queueMedium, ∀ t,
        findTask (procQueue 9 srvBudget.queueHigh
          (initPass srvBudget storeBudget [] [])).2.1.store id = some t →
        0 < t.remainingTime →
        ∃ post, (t, post) ∈
          (procQueue 9 srvBudget.queueMedium
            (procQueue 9 srvBudget.queueHigh
              (initPass srvBudget storeBudget [] [])).2.1).2.2)) :=
  ⟨⟨by decide, by decide, by decide⟩,
   processServerTasks_budget_priority 9 srvBudget storeBudget [] []
     (by decide) (by decide) (by decide)⟩

/-! ## Claim C2 — escalated tasks are *not* re-homed

The spec requires that once aging escalates a task, subsequent scheduling
passes draw it from the queue of its current (escalated) priority.  In the
source, `assignTask` pushes the task into the queue chosen by the priority
at assignment time, `ageTasks` mutates only the `priority` field, and
`processServerTasks` iterates the three queue arrays by name — so the task
keeps being scheduled from the queue it was enqueued into.  The theorem
exhibits this at a concrete input. -/

/-- C2 (code bug, concrete run): aging escalates task 4 (sitting in the low
queue) to `high` without moving it between queues; the following pass
spends its whole budget on the three `medium` tasks of the medium queue
and never advances the escalated `high` task — the opposite of scheduling
it from the high queue. -/
theorem escalated_task_not_rehomed :
    (ageTasks sC2 = sC2aged ∧
     (findTask sC2aged.tasks 4).map Task.priority = some Priority.high ∧
     sC2aged.servers = sC2.servers) ∧
    ((processServerTasks sC2aged.simulationTime srvC2 sC2aged.tasks
        sC2aged.completedTasks sC2aged.failedTasks).trace.map (fun e => e.1.id)
      = [1, 2, 3] ∧
     (findTask (processServerTasks sC2aged.simulationTime srvC2 sC2aged.tasks
        sC2aged.completedTasks sC2aged.failedTasks).store 4).map Task.remainingTime
      = some 5000 ∧
     (findTask (processServerTasks sC2aged.simulationTime srvC2 sC2aged.tasks
        sC2aged.completedTasks sC2aged.failedTasks).store 4).map Task.priority
      = some Priority.high) := by
  constructor
  · refine ⟨?_, by decide, rfl⟩
    unfold ageTasks sC2aged
    congr 1
    show List.map (ageTaskStep sC2.simulationTime) sC2.tasks = _
    have hage : ∀ (p : Priority) (i : Nat) (rem dl : Int),
        ageTaskStep sC2.simulationTime (mkProcTask i p rem dl)
          = if ((dl - 4000 : Int) : ℚ) < (slaTarget p : ℚ) * (3 / 10) then
              (match p with
               | .low => { mkProcTask i p rem dl with priority := .medium }
               | .medium => { mkProcTask i p rem dl with priority := .high }
               | .high => mkProcTask i p rem dl)
            else mkProcTask i p rem dl := by
      intro p i rem dl
      rfl
    show [ageTaskStep sC2.simulationTime (mkProcTask 1 .medium 5000 20000),
          ageTaskStep sC2.simulationTime (mkProcTask 2 .medium 5000 20000),
          ageTaskStep sC2.simulationTime (mkProcTask 3 .medium 5000 20000),
          ageTaskStep sC2.simulationTime (mkProcTask 4 .medium 5000 5000)] = _
    rw [hage, hage, hage, hage]
    rw [if_neg (by norm_num [slaTarget]), if_neg (by norm_num [slaTarget]),
      if_neg (by norm_num [slaTarget]), if_pos (by norm_num [slaTarget])]
  · refine ⟨by decide, by decide, by decide⟩

/-! ## Claim C9 — priority never decreases

Priority-preservation lemmas for every operation that touches the task
store, plus the one-level escalation bound for the aging rule. -/

/-- Here `ageTaskStep` never changes a task's id. -/
theorem ageTaskStep_id (simTime : Int) (t : Task) :
    (ageTaskStep simTime t).id = t.id := by
  unfold ageTaskStep
  by_cases h1 : t.status = .processing
  · rw [if_pos h1]
    dsimp only
    by_cases h2 : ((t.slaDeadline - simTime : Int) : ℚ)
        < (slaTarget t.priority : ℚ) * (3 / 10)
    · rw [if_pos h2]
      cases hp : t.priority <;> rfl
    · rw [if_neg h2]
  · rw [if_neg h1]

/-- The aging rule escalates by at most one level and never lowers;
`high` is terminal. -/
theorem ageTaskStep_rank (simTime : Int) (t : Task) :
    priorityRank t.priority ≤ priorityRank (ageTaskStep simTime t).priority ∧
    priorityRank (ageTaskStep simTime t).priority ≤ priorityRank t.priority + 1 ∧
    (t.priority = .high → (ageTaskStep simTime t).priority = .high) := by
  unfold ageTaskStep
  by_cases h1 : t.status = .processing
  · rw [if_pos h1]
    dsimp only
    by_cases h2 : ((t.slaDeadline - simTime : Int) : ℚ)
        < (slaTarget t.priority : ℚ) * (3 / 10)
    · rw [if_pos h2]
      cases hp : t.priority <;> simp [priorityRank, hp]
    · rw [if_neg h2]
      exact ⟨le_refl _, by omega, fun h => h⟩
  · rw [if_neg h1]
    exact ⟨le_refl _, by omega, fun h => h⟩

/-- Lookup-level priority preservation of a single `updateTask` whose
update function keeps both id and priority. -/
theorem findTask_updateTask_priority (store : List Task) (i j : Nat)
    (f : Task → Task) (hfid : ∀ t, t.id = i → (f t).id = t.id)
    (hfp : ∀ t, (f t).priority = t.priority) :
    (findTask (updateTask store i f) j).map Task.priority
      = (findTask store j).map Task.priority := by
  rw [findTask_updateTask store i j f hfid]
  split
  · cases findTask store j <;> simp [hfp]
  · rfl

/-- A queue pass never changes any task's priority in the store. -/
theorem procQueue_priority (simTime : Int) :
    ∀ (q : List Nat) (st : PassSt) (j : Nat),
      (findTask (procQueue simTime q st).2.1.store j).map Task.priority
        = (findTask st.store j).map Task.priority := by
  intro q
  induction q with
  | nil => intro st j; rfl
  | cons id0 rest ih =>
    intro st j
    by_cases h3 : st.counter ≥ 3
    · rw [procQueue_cons_budget simTime id0 rest st h3]
      exact ih st j
    · cases hft0 : findTask st.store id0 with
      | none =>
        rw [procQueue_cons_missing simTime id0 rest st h3 hft0]
        exact ih st j
      | some t0 =>
        by_cases hrem0 : t0.remainingTime ≤ 0
        · rw [procQueue_cons_done simTime id0 rest st t0 h3 hft0 hrem0]
          exact ih st j
        · by_cases hfin0 : t0.remainingTime - min 1000 t0.remainingTime ≤ 0
          · rw [procQueue_cons_complete simTime id0 rest st t0 h3 hft0 hrem0 hfin0]
            dsimp only
            rw [ih (completeSt simTime st id0 t0) j]
            show (findTask (updateTask st.store id0 _) j).map Task.priority = _
            rw [findTask_updateTask st.store id0 j _
              (fun u hu => by simp [completeTask, advTask, findTask_id hft0, hu])]
            by_cases hj : j = id0
            · rw [if_pos hj, hj, hft0]
              rfl
            · rw [if_neg hj]
          · rw [procQueue_cons_advance simTime id0 rest st t0 h3 hft0 hrem0 hfin0]
            dsimp only
            rw [ih (advanceSt st id0 t0) j]
            show (findTask (updateTask st.store id0 _) j).map Task.priority = _
            rw [findTask_updateTask st.store id0 j _
              (fun u hu => by simp [advTask, findTask_id hft0, hu])]
            by_cases hj : j = id0
            · rw [if_pos hj, hj, hft0]
              rfl
            · rw [if_neg hj]

/-- A whole server pass never changes any task's priority. -/
theorem processServerTasks_priority (simTime : Int) (srv : Server)
    (store : List Task) (cIds fIds : List Nat) (j : Nat) :
    (findTask (processServerTasks simTime srv store cIds fIds).store j).map Task.priority
      = (findTask store j).map Task.priority := by
  unfold processServerTasks
  split
  · dsimp only
    rw [foldl_markFailed]
    split
    · cases findTask store j <;> rfl
    · rfl
  · dsimp only
    rw [procQueue_priority, procQueue_priority, procQueue_priority]
    rfl

/-- The per-server fold never changes any task's priority. -/
theorem foldl_procServersStep_priority (simTime : Int) :
    ∀ (srvs : List Server) (acc : List Server × List Task × List Nat × List Nat)
      (j : Nat),
      (findTask (srvs.foldl (procServersStep simTime) acc).2.1 j).map Task.priority
        = (findTask acc.2.1 j).map Task.priority := by
  intro srvs
  induction srvs with
  | nil => intro acc j; rfl
  | cons srv rest ih =>
    intro acc j
    rw [List.foldl_cons, ih (procServersStep simTime acc srv) j]
    exact processServerTasks_priority simTime srv acc.2.1 acc.2.2.1 acc.2.2.2 j

/-- Here `processAllServers` never changes any task's priority. -/
theorem processAllServers_priority (s : SimState) (j : Nat) :
    (findTask (processAllServers s).tasks j).map Task.priority
      = (findTask s.tasks j).map Task.priority := by
  unfold processAllServers
  exact foldl_procServersStep_priority s.simulationTime s.servers _ j

/-- Here `calculateMetrics` never touches the task store. -/
theorem calculateMetrics_tasks (s : SimState) :
    (calculateMetrics s).1.tasks = s.tasks := by
  unfold calculateMetrics
  cases hs : s.taskProgress with
  | none => rfl
  | some tp =>
    dsimp only
    cases hs2 : s.metrics.successRate with
    | none => rfl
    | some sr =>
      dsimp only
      cases hs3 : s.metrics.completionVelocity with
      | none => rfl
      | some cv => rfl

/-- The task store a step ends with is the aged store of the processed
health-updated state (the metrics phases never touch it). -/
theorem step_tasks (s : SimState) (now : Int) (draws : Nat → ℚ) :
    (processSimulationStep s now draws).1.tasks
      = (ageTasks (processAllServers
          (if (s.simulationTime + 1) % 3 = 0
           then updateServerHealth { s with simulationTime := s.simulationTime + 1 } now draws
           else { s with simulationTime := s.simulationTime + 1 }))).tasks := by
  unfold processSimulationStep
  dsimp only
  cases hcm : calculateMetrics (updateTaskProgress (calculateAdvancedMetrics (ageTasks
      (processAllServers
        (if (s.simulationTime + 1) % 3 = 0
         then updateServerHealth { s with simulationTime := s.simulationTime + 1 } now draws
         else { s with simulationTime := s.simulationTime + 1 }))))) with
  | mk s7 errFlag =>
    have h7 : s7.tasks = (ageTasks (processAllServers
        (if (s.simulationTime + 1) % 3 = 0
         then updateServerHealth { s with simulationTime := s.simulationTime + 1 } now draws
         else { s with simulationTime := s.simulationTime + 1 }))).tasks := by
      have hh := calculateMetrics_tasks (updateTaskProgress (calculateAdvancedMetrics (ageTasks
        (processAllServers
          (if (s.simulationTime + 1) % 3 = 0
           then updateServerHealth { s with simulationTime := s.simulationTime + 1 } now draws
           else { s with simulationTime := s.simulationTime + 1 })))))
      rw [hcm] at hh
      exact hh
    cases errFlag
    · dsimp only
      split <;> exact h7
    · exact h7

/-- One simulation step changes each stored task's priority only through
the aging rule: it never lowers it, and raises it by at most one level. -/
theorem step_priority (s : SimState) (now : Int) (draws : Nat → ℚ)
    (id : Nat) (p : Priority)
    (h : (findTask s.tasks id).map Task.priority = some p) :
    ∃ p', (findTask (processSimulationStep s now draws).1.tasks id).map Task.priority
        = some p' ∧
      priorityRank p ≤ priorityRank p' ∧ priorityRank p' ≤ priorityRank p + 1 := by
  rw [step_tasks s now draws]
  set s2 := (if (s.simulationTime + 1) % 3 = 0
    then updateServerHealth { s with simulationTime := s.simulationTime + 1 } now draws
    else { s with simulationTime := s.simulationTime + 1 }) with hs2
  have h2 : s2.tasks = s.tasks := by
    rw [hs2]
    split <;> rfl
  have hPA : (findTask (processAllServers s2).tasks id).map Task.priority = some p := by
    rw [processAllServers_priority, h2, h]
  obtain ⟨t3, hfind, hp3⟩ := Option.map_eq_some'.mp hPA
  have hage : findTask (ageTasks (processAllServers s2)).tasks id
      = (findTask (processAllServers s2).tasks id).map
          (ageTaskStep (processAllServers s2).simulationTime) := by
    unfold ageTasks
    exact findTask_map _ (ageTaskStep_id _) _ id
  obtain ⟨hr1, hr2, _⟩ := ageTaskStep_rank (processAllServers s2).simulationTime t3
  refine ⟨(ageTaskStep (processAllServers s2).simulationTime t3).priority, ?_, ?_, ?_⟩
  · rw [hage, hfind]
    rfl
  · rw [← hp3]
    exact hr1
  · rw [← hp3]
    exact hr2

/-- Lookups survive appending fresh tasks to the store. -/
theorem findTask_append_left {store : List Task} {id : Nat} {t : Task}
    (ts : List Task) (h : findTask store id = some t) :
    findTask (store ++ ts) id = some t := by
  unfold findTask at h ⊢
  induction store with
  | nil => simp at h
  | cons a rest ih =>
    by_cases ha : a.id = id
    · rw [List.find?_cons_of_pos _ (by simp [ha])] at h
      rw [List.cons_append, List.find?_cons_of_pos _ (by simp [ha])]
      exact h
    · rw [List.find?_cons_of_neg _ (by simp [ha])] at h
      rw [List.cons_append, List.find?_cons_of_neg _ (by simp [ha])]
      exact ih h

/-- Here `assignTask` never changes any task's priority. -/
theorem assignTask_priority (s : SimState) (task : Task) (rSel : ℚ) (j : Nat) :
    (findTask (assignTask s task rSel).tasks j).map Task.priority
      = (findTask s.tasks j).map Task.priority := by
  unfold assignTask
  dsimp only
  split
  · exact findTask_updateTask_priority _ _ _ _ (fun _ _ => rfl) (fun _ => rfl)
  · split
    · exact findTask_updateTask_priority _ _ _ _ (fun _ _ => rfl) (fun _ => rfl)
    · exact findTask_updateTask_priority _ _ _ _ (fun _ _ => rfl) (fun _ => rfl)

/-- Here `generateTask` preserves the priority of every pre-existing task. -/
theorem generateTask_priority (s : SimState) (rProc rPrio rSel : ℚ)
    (id : Nat) (p : Priority)
    (h : (findTask s.tasks id).map Task.priority = some p) :
    (findTask (generateTask s rProc rPrio rSel).tasks id).map Task.priority = some p := by
  obtain ⟨t, hfind, hp⟩ := Option.map_eq_some'.mp h
  unfold generateTask
  dsimp only
  rw [assignTask_priority]
  show (findTask (s.tasks ++ [_]) id).map Task.priority = some p
  rw [findTask_append_left _ hfind]
  rw [← hp]
  rfl

/-- C9: priorities only move along low→medium→high.  The aging rule raises
a task's priority by at most one level and never lowers it (`high` is
terminal); a whole simulation step changes stored priorities only that
way; task generation/assignment and the health overrides leave every
pre-existing task's priority untouched. -/
theorem priority_never_decreases :
    (∀ (simTime : Int) (t : Task),
      priorityRank t.priority ≤ priorityRank (ageTaskStep simTime t).priority ∧
      priorityRank (ageTaskStep simTime t).priority ≤ priorityRank t.priority + 1 ∧
      (t.priority = .high → (ageTaskStep simTime t).priority = .high)) ∧
    (∀ (s : SimState) (now : Int) (draws : Nat → ℚ) (id : Nat) (p : Priority),
      (findTask s.tasks id).map Task.priority = some p →
      ∃ p', (findTask (processSimulationStep s now draws).1.tasks id).map Task.priority
          = some p' ∧
        priorityRank p ≤ priorityRank p' ∧ priorityRank p' ≤ priorityRank p + 1) ∧
    (∀ (s : SimState) (rProc rPrio rSel : ℚ) (id : Nat) (p : Priority),
      (findTask s.tasks id).map Task.priority = some p →
      (findTask (generateTask s rProc rPrio rSel).tasks id).map Task.priority = some p) ∧
    (∀ (s : SimState) (now : Int) (r : ℚ),
      (simulateRandomFailure s now r).tasks = s.tasks ∧
      (recoverAllServers s).tasks = s.tasks ∧
      ∀ sid : Nat, (delayedRecovery s sid).tasks = s.tasks) := by
  refine ⟨ageTaskStep_rank, step_priority, generateTask_priority, ?_⟩
  intro s now r
  refine ⟨?_, rfl, fun _ => rfl⟩
  unfold simulateRandomFailure
  dsimp only
  split
  · split <;> rfl
  · rfl

/-- C9 witness: in `sAging` (one `low` task 1000 ms from its deadline), the
step conjunct applied at task id 1 yields an escalated-or-equal priority,
and the aging-rule conjunct is instantiated at that task. -/
theorem priority_never_decreases_witness :
    ((findTask sAging.tasks 1).map Task.priority = some Priority.low) ∧
    (∃ p', (findTask (processSimulationStep sAging 0 (fun _ => 0)).1.tasks 1).map
        Task.priority = some p' ∧
      priorityRank Priority.low ≤ priorityRank p' ∧
      priorityRank p' ≤ priorityRank Priority.low + 1) :=
  ⟨by decide,
   priority_never_decreases.2.1 sAging 0 (fun _ => 0) 1 Priority.low (by decide)⟩

/-! ## Claim C3 — reset is claimed to fail on invalid configuration

`resetSimulation` contains no validation at all: it cannot fail, and it
reinitializes unconditionally, destroying the prior state even when the
configuration is structurally invalid. -/

/-- C3 counterexample: with priority percentages summing to 150 (the spec's
own example of a structurally invalid configuration), `resetSimulation`
does not fail and does not leave the prior state untouched — it wipes the
completed collection of the prior state. -/
theorem resetSimulation_mutates_on_invalid_config :
    ¬ (cfgInvalid.pdHigh + cfgInvalid.pdMedium + cfgInvalid.pdLow = 100) ∧
    sPrior.config = cfgInvalid ∧
    sPrior.completedTasks = [7] ∧
    (resetSimulation sPrior 0 (fun _ => 0)).completedTasks = [] := by
  exact ⟨by decide, rfl, rfl, rfl⟩

/-- C3 (amended): `resetSimulation` performs no configuration validation
and never fails: for every state — whatever its configuration, valid or
not — it unconditionally reinitializes the clock, the counters, every task
collection and the metrics record, rebuilds one server per configured
`serverCount`, and keeps the configuration itself. -/
theorem resetSimulation_unconditional (s : SimState) (now : Int) (ws : Nat → ℚ) :
    (resetSimulation s now ws).simulationState = .stopped ∧
    (resetSimulation s now ws).simulationTime = 0 ∧
    (resetSimulation s now ws).currentTaskId = 1 ∧
    (resetSimulation s now ws).roundRobinCounter = 0 ∧
    (resetSimulation s now ws).tasks = [] ∧
    (resetSimulation s now ws).completedTasks = [] ∧
    (resetSimulation s now ws).failedTasks = [] ∧
    (resetSimulation s now ws).metrics = freshMetrics ∧
    (resetSimulation s now ws).servers.length = s.config.serverCount ∧
    (resetSimulation s now ws).config = s.config := by
  refine ⟨rfl, rfl, rfl, rfl, rfl, rfl, rfl, rfl, ?_, rfl⟩
  show ((List.range s.config.serverCount).map _).length = s.config.serverCount
  rw [List.length_map, List.length_range]

/-! ## Claim C1 — every simulation step hits the missing metrics fields

`calculateMetrics` pushes into `this.metrics.successRate` and
`this.metrics.completionVelocity`; neither the constructor's metrics
literal nor the one rebuilt by `resetSimulation` defines them, and no
operation ever adds them — so every step of every reachable state throws
the `TypeError` (the embedding's error flag). -/

/-- Here `assignTask` never touches the metrics record. -/
theorem assignTask_metrics (s : SimState) (task : Task) (rSel : ℚ) :
    (assignTask s task rSel).metrics = s.metrics := by
  unfold assignTask
  dsimp only
  split
  · rfl
  · split <;> rfl

/-- Here `generateTask` never touches the metrics record. -/
theorem generateTask_metrics (s : SimState) (rProc rPrio rSel : ℚ) :
    (generateTask s rProc rPrio rSel).metrics = s.metrics := by
  unfold generateTask
  dsimp only
  rw [assignTask_metrics]

/-- Here `simulateRandomFailure` never touches the metrics record. -/
theorem simulateRandomFailure_metrics (s : SimState) (now : Int) (r : ℚ) :
    (simulateRandomFailure s now r).metrics = s.metrics := by
  unfold simulateRandomFailure
  dsimp only
  split
  · split <;> rfl
  · rfl

/-- With `taskProgress` defined but `metrics.successRate` absent,
`calculateMetrics` performs its four pushes and then throws on
`this.metrics.successRate.push(...)`, leaving the field still absent. -/
theorem calculateMetrics_err (s : SimState) (tp : TaskProgress)
    (htp : s.taskProgress = some tp) (h : s.metrics.successRate = none) :
    (calculateMetrics s).2 = true ∧
    (calculateMetrics s).1.metrics.successRate = none := by
  unfold calculateMetrics
  rw [htp]
  dsimp only
  rw [h]
  dsimp only
  exact ⟨rfl, rfl⟩

/-- Any step from a state whose metrics record lacks `successRate` aborts
with the `TypeError`, and the partially mutated state it leaves still
lacks the field. -/
theorem step_err (s : SimState) (now : Int) (draws : Nat → ℚ)
    (h : s.metrics.successRate = none) :
    (processSimulationStep s now draws).2 = true ∧
    (processSimulationStep s now draws).1.metrics.successRate = none := by
  unfold processSimulationStep
  dsimp only
  set s2 := (if (s.simulationTime + 1) % 3 = 0
    then updateServerHealth { s with simulationTime := s.simulationTime + 1 } now draws
    else { s with simulationTime := s.simulationTime + 1 }) with hs2
  have h2 : s2.metrics = s.metrics := by
    rw [hs2]
    split <;> rfl
  have h6sr : (updateTaskProgress (calculateAdvancedMetrics (ageTasks
      (processAllServers s2)))).metrics.successRate = none := by
    show (calculateAdvancedMetrics (ageTasks (processAllServers s2))).metrics.successRate
      = none
    show (ageTasks (processAllServers s2)).metrics.successRate = none
    show s2.metrics.successRate = none
    rw [h2, h]
  obtain ⟨e1, e2⟩ := calculateMetrics_err
    (updateTaskProgress (calculateAdvancedMetrics (ageTasks (processAllServers s2))))
    _ rfl h6sr
  cases hcm : calculateMetrics
      (updateTaskProgress (calculateAdvancedMetrics (ageTasks (processAllServers s2)))) with
  | mk s7 errFlag =>
    rw [hcm] at e1 e2
    dsimp only at e1 e2
    subst e1
    exact ⟨rfl, e2⟩

/-- No reachable state ever has a `metrics.successRate` field: the
constructor and `resetSimulation` omit it and no operation adds it. -/
theorem reachable_successRate_none (s : SimState) (h : Reachable s) :
    s.metrics.successRate = none := by
  induction h with
  | reset s now ws => rfl
  | genTask rProc rPrio rSel _ ih =>
    rw [generateTask_metrics]
    exact ih
  | step now draws _ ih =>
    exact (step_err _ now draws ih).2
  | manualFailure now r _ ih =>
    rw [simulateRandomFailure_metrics]
    exact ih
  | recoverAll _ ih => exact ih
  | delayed serverId _ ih => exact ih
  | setMode m _ ih => exact ih

/-- C1: the fresh metrics record of the constructor and of every
`resetSimulation` lacks both `successRate` and `completionVelocity`, and
from every state reachable from a reset, every simulation step runs into
the access to the undefined field: the step's error branch is taken. -/
theorem reachable_step_always_errors :
    freshMetrics.successRate = none ∧
    freshMetrics.completionVelocity = none ∧
    initialSim.metrics = freshMetrics ∧
    (∀ (s : SimState) (now : Int) (ws : Nat → ℚ),
      (resetSimulation s now ws).metrics = freshMetrics) ∧
    ∀ (s : SimState), Reachable s → ∀ (now : Int) (draws : Nat → ℚ),
      (processSimulationStep s now draws).2 = true := by
  refine ⟨rfl, rfl, rfl, fun s now ws => rfl, ?_⟩
  intro s h now draws
  exact (step_err s now draws (reachable_successRate_none s h)).1

/-- C1 witness: the freshly reset default simulator is reachable, and its
very first step aborts in `calculateMetrics`. -/
theorem reachable_step_always_errors_witness :
    Reachable (resetSimulation initialSim 0 (fun _ => 0)) ∧
    (processSimulationStep (resetSimulation initialSim 0 (fun _ => 0)) 0
      (fun _ => 0)).2 = true :=
  ⟨Reachable.reset initialSim 0 (fun _ => 0),
   reachable_step_always_errors.2.2.2.2 (resetSimulation initialSim 0 (fun _ => 0))
     (Reachable.reset initialSim 0 (fun _ => 0)) 0 (fun _ => 0)⟩

end LoadBalancer

